import Mathlib

/-! LXD daemon: response layer, container state handler and container listing

A shallow embedding of `lxd/response.go`, `lxd/container_state.go` and
`lxd/containers_get.go`.

Conventions of the embedding

* A Go `error` interface value is `Option GoError`; `none` is `nil`.
* A Go `(T, error)` result is `Except GoError T`.
* Code that talks to the datastore, the container runtime or the operation
  engine is written in state-passing style over a `World σ`: an abstract
  state `σ` of those collaborators together with the list of calls made
  so far.
* Go slices keep the difference between `nil` and an empty slice.
-/

namespace LXD

/-! ## Go values -/

/-- Go error values, compared by identity as `switch err` and `==` do: the
sentinel values `SmartError` names, and every other error value, given by
an identity and the text its `Error()` method returns. -/
inductive GoError where
  | osErrNotExist
  | sqlErrNoRows
  | NoSuchObjectError
  | osErrPermission
  | DbErrAlreadyDefined
  | sqlite3ErrConstraintUnique
  | other (id : Nat) (msg : String)
  deriving DecidableEq, Repr

/-- The `Error()` method. The texts of the sentinels are those of the Go
standard library, of go-sqlite3 and of `lxd/db.go`. -/
def GoError.Error : GoError → String
  | .osErrNotExist => "file does not exist"
  | .sqlErrNoRows => "sql: no rows in result set"
  | .NoSuchObjectError => "No such object"
  | .osErrPermission => "permission denied"
  | .DbErrAlreadyDefined => "The container/snapshot already exists"
  | .sqlite3ErrConstraintUnique => "constraint failed"
  | .other _ msg => msg

/-- A Go `error` interface value; `none` is `nil`. -/
abbrev error := Option GoError

/-- A Go slice: `nil`, or a (possibly empty) allocated sequence. -/
inductive Slice (α : Type) where
  | nil : Slice α
  | mk (xs : List α) : Slice α
  deriving DecidableEq, Repr

namespace Slice

/-- The elements of the slice, what `range` visits. -/
def toList {α : Type} : Slice α → List α
  | .nil => []
  | .mk xs => xs

/-- Go `len`. -/
def len {α : Type} (s : Slice α) : Nat := s.toList.length

/-- Go `append(s, x)`: the result is never `nil`. -/
def append {α : Type} (s : Slice α) (x : α) : Slice α := .mk (s.toList ++ [x])

/-- Go `s == nil`. -/
def isNil {α : Type} : Slice α → Bool
  | .nil => true
  | .mk _ => false

end Slice

/-- A Go `map[string]V`: entries with pairwise distinct keys. -/
structure GoMap (V : Type) where
  entries : List (String × V)
  nodup : (entries.map Prod.fst).Nodup

namespace GoMap

/-- Go `make(map[string]V)`. -/
def empty {V : Type} : GoMap V := ⟨[], List.nodup_nil⟩

/-- Go `m[k]` with the comma-ok result. -/
def get? {V : Type} (m : GoMap V) (k : String) : Option V :=
  (m.entries.find? (fun e => e.1 == k)).map Prod.snd

/-- The keys of the map. -/
def keys {V : Type} (m : GoMap V) : List String := m.entries.map Prod.fst

end GoMap

/-- Entries of a map after `m[k] = v`: the entry of `k` is replaced, or a
new one is added. -/
def setEntries {V : Type} (k : String) (v : V) : List (String × V) → List (String × V)
  | [] => [(k, v)]
  | e :: es => if e.1 = k then (k, v) :: es else e :: setEntries k v es

/-- Go `m[k] = v`. -/
def GoMap.set {V : Type} (m : GoMap V) (k : String) (v : V) : GoMap V :=
  ⟨setEntries k v m.entries, by
    have keys : ∀ es : List (String × V), (setEntries k v es).map Prod.fst =
        if k ∈ es.map Prod.fst then es.map Prod.fst else es.map Prod.fst ++ [k] := by
      intro es
      induction es with
      | nil => simp [setEntries]
      | cons e es ih =>
        by_cases h : e.1 = k
        · simp [setEntries, h]
        · have h2 : ¬ k = e.1 := fun h3 => h h3.symm
          simp only [setEntries, h, if_false, List.map_cons, ih, List.mem_cons, h2, false_or]
          split <;> simp
    rw [keys]
    split
    · exact m.nodup
    · rename_i hk
      exact List.Nodup.append m.nodup (List.nodup_singleton k) (by simpa using hk)⟩

/-- Go `int64`: the representative of an integer in `[-2^63, 2^63)`. -/
def wrapInt64 (x : Int) : Int := (x + 9223372036854775808) % 18446744073709551616 - 9223372036854775808

/-- Go `time.Duration`: a count of nanoseconds held in an `int64`. -/
abbrev Duration := Int

/-- Go `time.Second`. -/
def Second : Duration := 1000000000

/-- The conversion `time.Duration(n)` of an integer. -/
def Duration.ofInt (n : Int) : Duration := wrapInt64 n

/-- Multiplication of two `time.Duration` values, which wraps as `int64` does. -/
def Duration.mul (a b : Duration) : Duration := wrapInt64 (a * b)

/-! ## Data of the `shared` package used by the handlers -/

/-- Modelled from the spec: `shared.APIVersion`, declared in the `shared`
package outside the listed sources; every resource path of the spec starts
with `/1.0/`. -/
def APIVersion : String := "1.0"

/-- The `shared.ContainerStatus` record (status text and status code). -/
structure ContainerStatus where
  Status : String
  StatusCode : Int
  deriving DecidableEq, Repr

/-- The `shared.ContainerState` record that `RenderState` produces; only the
fields the handlers touch are kept. -/
structure ContainerState where
  Name : String
  Status : ContainerStatus
  deriving DecidableEq, Repr

/-- The `shared.ContainerInfo` record. -/
structure ContainerInfo where
  State : ContainerState
  Snaps : Slice String
  deriving DecidableEq, Repr

/-- The `shared.Jmap` type, `map[string]interface{}`; the handlers never look
inside a value, which is kept as its JSON text. -/
abbrev Jmap := GoMap String

/-- The values the handlers store in an `interface{}`. -/
inductive Iface where
  | nil
  | emptyMap
  | jmap (m : Jmap)
  | strings (s : Slice String)
  | containerInfoList (l : Slice ContainerInfo)
  | containerStatus (s : ContainerStatus)

/-- The `shared.OperationResult` record. -/
structure OperationResult where
  Metadata : Option String
  Error : error
  deriving DecidableEq, Repr

/-- The kinds of container the datastore lists. -/
inductive containerType where
  | cTypeRegular
  | cTypeSnapshot
  deriving DecidableEq, Repr

/-! ## The collaborators: calls, world, container, daemon -/

/-- The lifecycle verbs of a container. -/
inductive Verb where
  | Start
  | Stop
  | Shutdown (timeout : Duration)
  | Freeze
  | Unfreeze
  deriving DecidableEq, Repr

/-- A call made to a collaborator (datastore, container, operation engine,
clock, debug log). -/
inductive Event where
  | dbContainersList (cType : containerType)
  | dbContainerGetSnapshots (cname : String)
  | containerLXDLoad (name : String)
  | verb (cname : String) (v : Verb)
  | RenderState (cname : String)
  | Sleep (d : Duration)
  | Debugf (format : String) (args : List String)
  | PrintStack
  | DebugJson
  | createOperation
  | startOperation (op : String)
  deriving DecidableEq, Repr

/-- The state of the collaborators and the calls made to them so far. -/
structure World (σ : Type) where
  st : σ
  log : List Event

/-- A call: the collaborator's transition on the state, recorded in the log. -/
def World.call {σ α : Type} (ev : Event) (f : σ → α × σ) (w : World σ) : α × World σ :=
  ((f w.st).1, { st := (f w.st).2, log := w.log ++ [ev] })

/-- A loaded container: its name and what its verbs do to the runtime. -/
structure Container (σ : Type) where
  name : String
  exec : Verb → σ → error × σ
  render : σ → Except GoError ContainerState × σ

namespace Container

variable {σ : Type}

/-- The method `c.Start()`. -/
def Start (c : Container σ) : World σ → error × World σ :=
  World.call (.verb c.name .Start) (c.exec .Start)

/-- The method `c.Stop()`. -/
def Stop (c : Container σ) : World σ → error × World σ :=
  World.call (.verb c.name .Stop) (c.exec .Stop)

/-- The method `c.Shutdown(timeout)`. -/
def Shutdown (c : Container σ) (timeout : Duration) : World σ → error × World σ :=
  World.call (.verb c.name (.Shutdown timeout)) (c.exec (.Shutdown timeout))

/-- The method `c.Freeze()`. -/
def Freeze (c : Container σ) : World σ → error × World σ :=
  World.call (.verb c.name .Freeze) (c.exec .Freeze)

/-- The method `c.Unfreeze()`. -/
def Unfreeze (c : Container σ) : World σ → error × World σ :=
  World.call (.verb c.name .Unfreeze) (c.exec .Unfreeze)

/-- The method `c.RenderState()`. -/
def RenderState (c : Container σ) : World σ → Except GoError ContainerState × World σ :=
  World.call (.RenderState c.name) c.render

end Container

/-- The `shared.OperationWebsocket` interface: its metadata accessor and its
`Do` entry point. -/
structure OperationWebsocket (σ : Type) where
  Metadata : Iface
  Do : World σ → OperationResult × World σ

/-- The decoded JSON body of a state request: a field is `none` when the
body does not have it. -/
structure StateBody where
  action : Option String
  timeout : Option Int
  force : Option Bool
  deriving DecidableEq, Repr

/-- An HTTP request, as far as the handlers read it: the route variable
`name`, the outcome of decoding the body as JSON, and the query. -/
structure Request where
  name : String
  body : Except GoError StateBody
  query : List (String × String)

/-- The daemon: its datastore and container loader. -/
structure Daemon (σ : Type) where
  listContainers : containerType → σ → Except GoError (Slice String) × σ
  getSnapshots : String → σ → Except GoError (Slice String) × σ
  loadContainer : String → σ → Except GoError (Container σ) × σ
  isRecursionRequest : Request → Bool

/-- The call `dbContainersList(d.db, cType)`. -/
def dbContainersList {σ : Type} (d : Daemon σ) (cType : containerType) :
    World σ → Except GoError (Slice String) × World σ :=
  World.call (.dbContainersList cType) (d.listContainers cType)

/-- The call `dbContainerGetSnapshots(d.db, cname)`. -/
def dbContainerGetSnapshots {σ : Type} (d : Daemon σ) (cname : String) :
    World σ → Except GoError (Slice String) × World σ :=
  World.call (.dbContainerGetSnapshots cname) (d.getSnapshots cname)

/-- The call `containerLXDLoad(d, name)`. -/
def containerLXDLoad {σ : Type} (d : Daemon σ) (name : String) :
    World σ → Except GoError (Container σ) × World σ :=
  World.call (.containerLXDLoad name) (d.loadContainer name)

/-! ## `response.go`: the response shapes -/

/-- The `syncResponse` struct. -/
structure syncResponse where
  success : Bool
  metadata : Iface

/-- The `fileResponseEntry` struct. -/
structure fileResponseEntry where
  identifier : String
  path : String
  filename : String
  deriving DecidableEq, Repr

/-- The `fileResponse` struct. -/
structure fileResponse where
  req : Request
  files : Slice fileResponseEntry
  headers : Option (GoMap String)
  removeAfterServe : Bool

/-- The `asyncResponse` struct (its `done` channel is never used by the
listed code). -/
structure asyncResponse (σ : Type) where
  run : Option (World σ → OperationResult × World σ)
  cancel : Option (World σ → error × World σ)
  ws : Option (OperationWebsocket σ)
  resources : Option (GoMap (Slice String))
  metadata : Option Jmap

/-- The `ErrorResponse` struct. -/
structure ErrorResponse where
  code : Int
  msg : String
  deriving DecidableEq, Repr

/-- The `Response` interface: its four implementations. -/
inductive Response (σ : Type) where
  | sync (r : syncResponse)
  | file (r : fileResponse)
  | async (r : asyncResponse σ)
  | error (r : ErrorResponse)

/-- The constructor `SyncResponse`. -/
def SyncResponse {σ : Type} (success : Bool) (metadata : Iface) : Response σ :=
  .sync ⟨success, metadata⟩

/-- The value `EmptySyncResponse`. -/
def EmptySyncResponse {σ : Type} : Response σ := .sync ⟨true, .emptyMap⟩

/-- The constructor `FileResponse`. -/
def FileResponse {σ : Type} (r : Request) (files : Slice fileResponseEntry)
    (headers : Option (GoMap String)) (removeAfterServe : Bool) : Response σ :=
  .file ⟨r, files, headers, removeAfterServe⟩

/-- The constructor `AsyncResponse`. -/
def AsyncResponse {σ : Type} (run : Option (World σ → OperationResult × World σ))
    (cancel : Option (World σ → error × World σ)) : Response σ :=
  .async { run := run, cancel := cancel, ws := none, resources := none, metadata := none }

/-- The constructor `AsyncResponseWithWs`. -/
def AsyncResponseWithWs {σ : Type} (ws : OperationWebsocket σ)
    (cancel : Option (World σ → error × World σ)) : Response σ :=
  .async { run := some ws.Do, cancel := cancel, ws := some ws, resources := none, metadata := none }

/-- The value `NotImplemented` (`http.StatusNotImplemented` is 501). -/
def NotImplemented : ErrorResponse := ⟨501, "not implemented"⟩

/-- The value `NotFound` (`http.StatusNotFound` is 404). -/
def NotFound : ErrorResponse := ⟨404, "not found"⟩

/-- The value `Forbidden` (`http.StatusForbidden` is 403). -/
def Forbidden : ErrorResponse := ⟨403, "not authorized"⟩

/-- The value `Conflict` (`http.StatusConflict` is 409). -/
def Conflict : ErrorResponse := ⟨409, "already exists"⟩

/-- The function `BadRequest` (`http.StatusBadRequest` is 400). -/
def BadRequest {σ : Type} (err : GoError) : Response σ := .error ⟨400, err.Error⟩

/-- The function `InternalError` (`http.StatusInternalServerError` is 500). -/
def InternalError {σ : Type} (err : GoError) : Response σ := .error ⟨500, err.Error⟩

/-- The function `SmartError`: a `switch` on the identity of `err`. -/
def SmartError {σ : Type} : error → Response σ
  | none => EmptySyncResponse
  | some .osErrNotExist => .error NotFound
  | some .sqlErrNoRows => .error NotFound
  | some .NoSuchObjectError => .error NotFound
  | some .osErrPermission => .error Forbidden
  | some .DbErrAlreadyDefined => .error Conflict
  | some .sqlite3ErrConstraintUnique => .error Conflict
  | some err => InternalError err

/-! ## Package-level collaborators outside the listed sources -/

/-- The package-level functions and flags the listed code calls and whose
declarations are elsewhere in the package: the lock test of the datastore,
the operation engine, the `debug` flag, and what a sleep lets happen to the
collaborators. -/
structure Globals (σ : Type) where
  isDbLockedError : error → Bool
  createOp : Option Jmap → Option (GoMap (Slice String)) →
    Option (World σ → OperationResult × World σ) → Option (World σ → error × World σ) →
    Option (OperationWebsocket σ) → σ → Except GoError String × σ
  startOp : String → σ → error × σ
  debug : Bool
  sleep : Duration → σ → σ

/-- The call `createOperation(metadata, resources, run, cancel, ws)`. -/
def createOperation {σ : Type} (g : Globals σ) (metadata : Option Jmap)
    (resources : Option (GoMap (Slice String)))
    (run : Option (World σ → OperationResult × World σ))
    (cancel : Option (World σ → error × World σ)) (ws : Option (OperationWebsocket σ)) :
    World σ → Except GoError String × World σ :=
  World.call .createOperation (g.createOp metadata resources run cancel ws)

/-- The call `startOperation(op)`. -/
def startOperation {σ : Type} (g : Globals σ) (op : String) : World σ → error × World σ :=
  World.call (.startOperation op) (g.startOp op)

/-- The call `shared.Debugf(format, args...)`. -/
def shared.Debugf {σ : Type} (format : String) (args : List String) (w : World σ) : World σ :=
  { w with log := w.log ++ [.Debugf format args] }

/-- The call `shared.PrintStack()`. -/
def shared.PrintStack {σ : Type} (w : World σ) : World σ :=
  { w with log := w.log ++ [.PrintStack] }

/-- The call `shared.DebugJson(captured)`. -/
def shared.DebugJson {σ : Type} (w : World σ) : World σ :=
  { w with log := w.log ++ [.DebugJson] }

/-- The call `time.Sleep(d)`. -/
def time.Sleep {σ : Type} (g : Globals σ) (d : Duration) (w : World σ) : World σ :=
  { st := g.sleep d w.st, log := w.log ++ [.Sleep d] }

/-! ## `response.go`: rendering -/

/-- Modelled from the spec: the `lxd.ResponseType` values, declared in the
client package outside the listed sources; the spec gives the envelope types
`sync`, `async` and `error`. -/
inductive ResponseType where
  | Sync
  | Async
  | Error
  deriving DecidableEq, Repr

/-- Modelled from the spec: the `shared.StatusCode` values the response layer
uses, declared in the `shared` package outside the listed sources. -/
inductive StatusCode where
  | OK
  | Success
  | Failure
  deriving DecidableEq, Repr

/-- Modelled from the spec: the method `StatusCode.String`; the spec names
the statuses `Success` and `Failure`. -/
def StatusCode.String : StatusCode → String
  | .OK => "OK"
  | .Success => "Success"
  | .Failure => "Failure"

/-- The `resp` struct, body of a synchronous response. -/
structure resp where
  Type_ : ResponseType
  Status : String
  StatusCode : StatusCode
  Metadata : Iface

/-- The `async` struct, body of an asynchronous response. -/
structure async where
  Type_ : ResponseType
  Status : String
  StatusCode : StatusCode
  Operation : String
  Resources : Option (GoMap (Slice String))
  Metadata : Iface

/-- A value handed to the JSON encoder. -/
inductive JSONBody where
  | resp (b : resp)
  | async (b : async)

/-- A part of a multipart body: form field name, file name, content. -/
structure Part where
  fieldname : String
  filename : String
  content : String
  deriving DecidableEq, Repr

/-- A call made on the `http.ResponseWriter`. -/
inductive WCall where
  | HeaderSet (k v : String)
  | WriteHeader (code : Int)
  | Encode (body : JSONBody)
  | ServeContent (name : String) (modtime : Nat) (content : String)
  | WriteMultipart (boundary : String) (parts : List Part)

/-- The `http.ResponseWriter`: the calls made on it so far, and the error,
if any, that writing to the client returns. -/
structure ResponseWriter where
  calls : List WCall
  writeErr : error

/-- The call `w.Header().Set(k, v)`. -/
def ResponseWriter.HeaderSet (w : ResponseWriter) (k v : String) : ResponseWriter :=
  { w with calls := w.calls ++ [.HeaderSet k v] }

/-- The call `w.WriteHeader(code)`. -/
def ResponseWriter.WriteHeader (w : ResponseWriter) (code : Int) : ResponseWriter :=
  { w with calls := w.calls ++ [.WriteHeader code] }

/-- The function `WriteJSON`: the body is encoded onto `w`, and in debug mode
the captured copy goes to the debug log. The result is the encoder's error. -/
def WriteJSON {σ : Type} (g : Globals σ) (w : ResponseWriter) (body : JSONBody)
    (world : World σ) : (error × ResponseWriter) × World σ :=
  let captured := g.debug
  let err := w.writeErr
  let w := { w with calls := w.calls ++ [.Encode body] }
  if captured then ((err, w), shared.DebugJson world) else ((err, w), world)

/-- The inner loop `for _, c := range value` of `asyncResponse.Render`, from
`var values []string`. -/
def expandValues (key : String) (value : Slice String) : Slice String :=
  value.toList.foldl
    (fun (values : Slice String) c => values.append ("/" ++ APIVersion ++ "/" ++ key ++ "/" ++ c))
    Slice.nil

/-- The outer loop `for key, value := range r.resources` of
`asyncResponse.Render`, from `resources := make(map[string][]string)`. -/
def expandResources (res : GoMap (Slice String)) : GoMap (Slice String) :=
  res.entries.foldl (fun resources kv => resources.set kv.1 (expandValues kv.1 kv.2)) GoMap.empty

/-- The value of `body` that `asyncResponse.Render` builds for the operation
`op`: the metadata of the websocket, else the metadata of the response when
it has one, and the expanded resources when the response has resources. -/
def asyncResponse.Render.body {σ : Type} (r : asyncResponse σ) (op : String) : async :=
  let body : async :=
    { Type_ := .Async, Status := StatusCode.OK.String, StatusCode := .OK, Operation := op,
      Resources := none, Metadata := .nil }
  let body : async :=
    match r.ws, r.metadata with
    | some ws, _ => { body with Metadata := ws.Metadata }
    | none, some metadata => { body with Metadata := .jmap metadata }
    | none, none => body
  match r.resources with
  | some res => { body with Resources := some (expandResources res) }
  | none => body

/-- The method `asyncResponse.Render`. -/
def asyncResponse.Render {σ : Type} (g : Globals σ) (r : asyncResponse σ) (w : ResponseWriter)
    (world : World σ) : (error × ResponseWriter) × World σ :=
  match createOperation g r.metadata r.resources r.run r.cancel r.ws world with
  | (.error err, world) => ((some err, w), world)
  | (.ok op, world) =>
    match startOperation g op world with
    | (some err, world) => ((some err, w), world)
    | (none, world) =>
      let body := asyncResponse.Render.body r op
      let w := w.HeaderSet "Location" op
      let w := w.WriteHeader 202
      WriteJSON g w (.async body) world

/-- A file of the filesystem: content, modification time, and the errors, if
any, that `Stat` and reading it return. -/
structure FileNode where
  content : String
  modTime : Nat
  statErr : error
  readErr : error
  deriving DecidableEq, Repr

/-- The filesystem: the file, if any, at an absolute path. -/
abbrev FS := String → Option FileNode

/-- The absolute path that a name given to the operating system stands for
in the working directory `cwd`: a name that starts with `/` stands for
itself, any other name for that name under `cwd`. Paths are otherwise taken
as written (no `.`, `..` or link is followed). -/
def resolvePath (cwd name : String) : String :=
  match name.data with
  | '/' :: _ => name
  | _ => if cwd = "/" then "/" ++ name else cwd ++ "/" ++ name

/-- The call `os.Open(path)` in the working directory `cwd`: the error is a
`*PathError`, not the sentinel `os.ErrNotExist`. -/
def os.Open (fs : FS) (cwd path : String) : Except GoError FileNode :=
  match fs (resolvePath cwd path) with
  | some f => .ok f
  | none => .error (.other 0 ("open " ++ path ++ ": no such file or directory"))

/-- The call `os.Remove(name)` in the working directory `cwd`. -/
def os.Remove (fs : FS) (cwd name : String) : error × FS :=
  match fs (resolvePath cwd name) with
  | some _ => (none, fun p => if p = resolvePath cwd name then none else fs p)
  | none => (some (.other 0 ("remove " ++ name ++ ": no such file or directory")), fs)

/-- The loop `for _, entry := range r.files` of `fileResponse.Render`, which
fills the multipart writer `mw`; an error of `os.Open` or of reading the file
ends it. The writer writes to a buffer in memory, so that `CreateFormFile`
returns no error. -/
def fileResponse.Render.loop (fs : FS) (cwd : String) : List fileResponseEntry → List Part →
    Except GoError (List Part)
  | [], mw => .ok mw
  | entry :: rest, mw =>
    match os.Open fs cwd entry.path with
    | .error err => .error err
    | .ok fd =>
      match fd.readErr with
      | some err => .error err
      | none =>
        fileResponse.Render.loop fs cwd rest
          (mw ++ [⟨entry.identifier, entry.filename, fd.content⟩])

/-- The method `fileResponse.Render`. The boundary the multipart writer draws
at random is the argument `boundary`, the working directory of the daemon
the argument `cwd`. -/
def fileResponse.Render (r : fileResponse) (boundary cwd : String) (w : ResponseWriter)
    (fs : FS) : (error × ResponseWriter) × FS :=
  let w :=
    match r.headers with
    | some headers => headers.entries.foldl (fun w kv => w.HeaderSet kv.1 kv.2) w
    | none => w
  match r.files.toList with
  | [] => ((none, w), fs)
  | [file] =>
    let w := w.HeaderSet "Content-Type" "application/octet-stream"
    let w := w.HeaderSet "Content-Disposition" ("inline;filename=" ++ file.filename)
    match os.Open fs cwd file.path with
    | .error err => ((some err, w), fs)
    | .ok f =>
      match f.statErr with
      | some err => ((some err, w), fs)
      | none =>
        let w := { w with calls := w.calls ++ [.ServeContent file.filename f.modTime f.content] }
        let fs := if r.removeAfterServe then (os.Remove fs cwd file.filename).2 else fs
        ((none, w), fs)
  | files =>
    match fileResponse.Render.loop fs cwd files [] with
    | .error err => ((some err, w), fs)
    | .ok mw =>
      let w := w.HeaderSet "Content-Type" ("multipart/form-data; boundary=" ++ boundary)
      let err := w.writeErr
      let w := { w with calls := w.calls ++ [.WriteMultipart boundary mw] }
      ((err, w), fs)

/-! ## `container_state.go`: the state handler -/

/-- The `containerStatePutReq` struct the body is decoded into. -/
structure containerStatePutReq where
  Action : String
  Timeout : Int
  Force : Bool
  deriving DecidableEq, Repr

/-- The value of `raw` before decoding: `containerStatePutReq{}` followed by
`raw.Timeout = -1`. -/
def rawDefault : containerStatePutReq := { Action := "", Timeout := -1, Force := false }

/-- The effect of `json.Decoder.Decode(&raw)` on a body that parses: a field
the body has is stored, a field it lacks is left as it was. -/
def jsonDecode (b : StateBody) (raw : containerStatePutReq) : containerStatePutReq :=
  { Action := b.action.getD raw.Action
    Timeout := b.timeout.getD raw.Timeout
    Force := b.force.getD raw.Force }

/-- Modelled from the spec: the `shared.ContainerAction` constants, declared
in the `shared` package outside the listed sources; the spec gives the action
names `start|stop|restart|freeze|unfreeze`. -/
def shared.Start : String := "start"

/-- Modelled from the spec: see `shared.Start`. -/
def shared.Stop : String := "stop"

/-- Modelled from the spec: see `shared.Start`. -/
def shared.Restart : String := "restart"

/-- Modelled from the spec: see `shared.Start`. -/
def shared.Freeze : String := "freeze"

/-- Modelled from the spec: see `shared.Start`. -/
def shared.Unfreeze : String := "unfreeze"

/-- Modelled from the spec: `shared.OperationWrap`, declared in the `shared`
package outside the listed sources. It turns a `func() error` into the run
function of an operation, whose result carries the error the body returned
(nil: success, non-nil: failure with that error). -/
def shared.OperationWrap {σ : Type} (f : World σ → error × World σ) :
    World σ → OperationResult × World σ :=
  fun w => ({ Metadata := none, Error := (f w).1 }, (f w).2)

/-- The closure `do` of `case shared.Start`. -/
def containerStatePut.doStart {σ : Type} (c : Container σ) : World σ → error × World σ :=
  fun w =>
    match c.Start w with
    | (some err, w) => (some err, w)
    | (none, w) => (none, w)

/-- The closure `do` of `case shared.Stop` when `raw.Timeout == 0 || raw.Force`. -/
def containerStatePut.doStop {σ : Type} (c : Container σ) : World σ → error × World σ :=
  fun w =>
    match c.Stop w with
    | (some err, w) => (some err, w)
    | (none, w) => (none, w)

/-- The closure `do` of `case shared.Stop` otherwise. -/
def containerStatePut.doShutdown {σ : Type} (c : Container σ) (raw : containerStatePutReq) :
    World σ → error × World σ :=
  fun w =>
    match c.Shutdown (Duration.mul (Duration.ofInt raw.Timeout) Second) w with
    | (some err, w) => (some err, w)
    | (none, w) => (none, w)

/-- The closure `do` of `case shared.Restart`. -/
def containerStatePut.doRestart {σ : Type} (c : Container σ) (raw : containerStatePutReq) :
    World σ → error × World σ :=
  fun w =>
    if raw.Timeout = 0 || raw.Force then
      match c.Stop w with
      | (some err, w) => (some err, w)
      | (none, w) =>
        match c.Start w with
        | (some err, w) => (some err, w)
        | (none, w) => (none, w)
    else
      match c.Shutdown (Duration.mul (Duration.ofInt raw.Timeout) Second) w with
      | (some err, w) => (some err, w)
      | (none, w) =>
        match c.Start w with
        | (some err, w) => (some err, w)
        | (none, w) => (none, w)

/-- The handler `containerStatePut`. -/
def containerStatePut {σ : Type} (d : Daemon σ) (r : Request) (w : World σ) :
    Response σ × World σ :=
  let name := r.name
  let raw := rawDefault
  match r.body with
  | .error err => (BadRequest err, w)
  | .ok b =>
    let raw := jsonDecode b raw
    match containerLXDLoad d name w with
    | (.error err, w) => (SmartError (some err), w)
    | (.ok c, w) =>
      if raw.Action = shared.Start then
        (AsyncResponse (some (shared.OperationWrap (containerStatePut.doStart c))) none, w)
      else if raw.Action = shared.Stop then
        if raw.Timeout = 0 || raw.Force then
          (AsyncResponse (some (shared.OperationWrap (containerStatePut.doStop c))) none, w)
        else
          (AsyncResponse (some (shared.OperationWrap (containerStatePut.doShutdown c raw))) none, w)
      else if raw.Action = shared.Restart then
        (AsyncResponse (some (shared.OperationWrap (containerStatePut.doRestart c raw))) none, w)
      else if raw.Action = shared.Freeze then
        (AsyncResponse (some (shared.OperationWrap c.Freeze)) none, w)
      else if raw.Action = shared.Unfreeze then
        (AsyncResponse (some (shared.OperationWrap c.Unfreeze)) none, w)
      else
        (BadRequest (.other 0 ("unknown action " ++ raw.Action)), w)

/-! ## `containers_get.go`: listing containers -/

/-- The function `doContainerGet`; the second component is the `Response`,
`none` for `nil`. -/
def doContainerGet {σ : Type} (d : Daemon σ) (cname : String) (w : World σ) :
    (ContainerInfo × Option (Response σ)) × World σ :=
  match containerLXDLoad d cname w with
  | (.error err, w) => (({ State := ⟨"", ⟨"", 0⟩⟩, Snaps := .nil }, some (SmartError (some err))), w)
  | (.ok c, w) =>
    match dbContainerGetSnapshots d cname w with
    | (.error err, w) =>
      (({ State := ⟨"", ⟨"", 0⟩⟩, Snaps := .nil }, some (SmartError (some err))), w)
    | (.ok results, w) =>
      let body := results.toList.foldl
        (fun (body : Slice String) name =>
          body.append ("/" ++ APIVersion ++ "/containers/" ++ cname ++ "/snapshots/" ++ name))
        Slice.nil
      match c.RenderState w with
      | (.error err, w) =>
        (({ State := ⟨"", ⟨"", 0⟩⟩, Snaps := .nil }, some (SmartError (some err))), w)
      | (.ok cts, w) => (({ State := cts, Snaps := body }, none), w)

/-- The loop `for _, container := range result` of `doContainersGet`, on the
containers still to visit and the two accumulators. -/
def doContainersGet.loop {σ : Type} (d : Daemon σ) (recursion : Bool) :
    List String → Slice String → Slice ContainerInfo → World σ →
      (Slice String × Slice ContainerInfo) × World σ
  | [], resultString, resultMap, w => ((resultString, resultMap), w)
  | container :: rest, resultString, resultMap, w =>
    if !recursion then
      let url := "/" ++ APIVersion ++ "/containers/" ++ container
      doContainersGet.loop d recursion rest (resultString.append url) resultMap w
    else
      match doContainerGet d container w with
      | ((_, some _), w) => doContainersGet.loop d recursion rest resultString resultMap w
      | ((container, none), w) =>
        doContainersGet.loop d recursion rest resultString (resultMap.append container) w

/-- The function `doContainersGet`. After the first `return nil, err` the
variable `err` is nil, so the second test of `err` never fires. -/
def doContainersGet {σ : Type} (d : Daemon σ) (recursion : Bool) (w : World σ) :
    (Iface × error) × World σ :=
  match dbContainersList d .cTypeRegular w with
  | (.error err, w) => ((.nil, some err), w)
  | (.ok result, w) =>
    let resultString : Slice String := .mk []
    let resultMap : Slice ContainerInfo := .mk []
    match doContainersGet.loop d recursion result.toList resultString resultMap w with
    | ((resultString, resultMap), w) =>
      if !recursion then ((.strings resultString, none), w)
      else ((.containerInfoList resultMap, none), w)

/-- The tail of the loop body of `containersGet`, run when the datastore is
locked: two debug calls and the sleep of one second. -/
def containersGet.backoff {σ : Type} (g : Globals σ) (w : World σ) : World σ :=
  time.Sleep g (Duration.mul 1 Second)
    (shared.PrintStack (shared.Debugf "DBERR: containersGet, db is locked" [] w))

/-- The handler `containersGet`. Its `for` loop has no bound; `fuel` bounds
the number of iterations the embedding follows, and `none` means the bound
was reached. -/
def containersGet {σ : Type} (d : Daemon σ) (g : Globals σ) (r : Request) :
    Nat → World σ → Option (Response σ × World σ)
  | 0, _ => none
  | fuel + 1, w =>
    match doContainersGet d (d.isRecursionRequest r) w with
    | ((result, none), w) => some (SyncResponse true result, w)
    | ((_, some err), w) =>
      if !g.isDbLockedError (some err) then
        some (InternalError err,
          shared.Debugf "DBERR: containersGet: error %q" [err.Error] w)
      else
        containersGet d g r fuel (containersGet.backoff g w)

/-- The calls that `doContainerGet` and the loop of `doContainersGet` make:
loading a container, listing its snapshots, rendering its state. -/
def Event.perContainer : Event → Prop
  | .containerLXDLoad _ => True
  | .dbContainerGetSnapshots _ => True
  | .RenderState _ => True
  | _ => False

/-! ## A concrete daemon for the instances

The state is the number of calls the collaborators have served. -/

/-- A container whose graceful shutdown times out and whose other verbs
succeed. -/
def demoContainer (name : String) : Container Nat where
  name := name
  exec := fun v s =>
    match v with
    | .Shutdown _ => (some (.other 7 "timeout"), s + 1)
    | _ => (none, s + 1)
  render := fun s => (.ok ⟨name, ⟨"Running", 103⟩⟩, s + 1)

/-- A daemon with the containers `c1` and `c2`, whose datastore is locked
for the first three calls. -/
def demoDaemon : Daemon Nat where
  listContainers := fun _ s =>
    if s < 3 then (.error (.other 5 "database is locked"), s + 1)
    else (.ok (.mk ["c1", "c2"]), s + 1)
  getSnapshots := fun _ s => (.ok (.mk ["snap0"]), s + 1)
  loadContainer := fun name s =>
    if name = "c1" ∨ name = "c2" then (.ok (demoContainer name), s + 1)
    else (.error .NoSuchObjectError, s + 1)
  isRecursionRequest := fun r => r.query.contains ("recursion", "1")

/-- Package-level collaborators for `demoDaemon`: operations are numbered by
the state. -/
def demoGlobals : Globals Nat where
  isDbLockedError := fun err => err == some (.other 5 "database is locked")
  createOp := fun _ _ _ _ _ s => (.ok ("/1.0/operations/" ++ toString s), s + 1)
  startOp := fun _ s => (none, s + 1)
  debug := false
  sleep := fun _ s => s

/-- The body `{"action": "stop", "timeout": 30}`. -/
def demoStop : StateBody := { action := some "stop", timeout := some 30, force := none }

/-- The body `{"action": "stop", "timeout": 9223372037}`. -/
def demoStopLong : StateBody :=
  { action := some "stop", timeout := some 9223372037, force := none }

/-- The body `{"action": "restart"}`. -/
def demoRestart : StateBody := { action := some "restart", timeout := none, force := none }

/-- The body `{"action": "reboot"}`. -/
def demoReboot : StateBody := { action := some "reboot", timeout := none, force := none }

/-- A state request for the container `name`. -/
def demoRequest (name : String) (b : StateBody) : Request :=
  { name := name, body := .ok b, query := [] }

/-- A request for the list of containers, without recursion. -/
def demoList : Request := { name := "", body := .ok ⟨none, none, none⟩, query := [] }

/-- The initial world: no call served, no call made. -/
def demoWorld : World Nat := { st := 0, log := [] }

/-- The world in which `containersGet` makes its attempt number `i` (from 0)
on the demo daemon, as long as the attempts before it failed. -/
def demoAttempt : Nat → World Nat
  | 0 => demoWorld
  | i + 1 => containersGet.backoff demoGlobals (doContainersGet demoDaemon false (demoAttempt i)).2

/-- An asynchronous response on the two containers of the demo daemon. -/
def demoAsync : asyncResponse Nat where
  run := none
  cancel := none
  ws := none
  resources := some ⟨[("containers", .mk ["c1", "c2"])], by decide⟩
  metadata := none

/-- A response writer on which nothing was written and whose writes succeed. -/
def demoWriter : ResponseWriter := { calls := [], writeErr := none }

/-- A filesystem with two files under `/var/lib/lxd/tmp`. -/
def demoFS : FS := fun p =>
  if p = "/var/lib/lxd/tmp/lxd_1" then some ⟨"hosts", 10, none, none⟩
  else if p = "/var/lib/lxd/tmp/lxd_2" then some ⟨"passwd", 11, none, none⟩
  else none

/-- A file response, with removal after serving, for one temporary file
served under the name `hosts`. -/
def demoFileOne : fileResponse where
  req := demoList
  files := .mk [⟨"hosts", "/var/lib/lxd/tmp/lxd_1", "hosts"⟩]
  headers := none
  removeAfterServe := true

/-- A file response, with removal after serving, for two temporary files. -/
def demoFileTwo : fileResponse where
  req := demoList
  files := .mk [⟨"hosts", "/var/lib/lxd/tmp/lxd_1", "hosts"⟩,
    ⟨"passwd", "/var/lib/lxd/tmp/lxd_2", "passwd"⟩]
  headers := none
  removeAfterServe := true

/-! ## The recursive listing, as the specification words it -/

/-- The specification of the listing with recursion, to be compared with
`doContainersGet`: the containers are visited in the order of the datastore,
each in the world its predecessors left; a container whose load, snapshot
listing and state rendering all succeed contributes its name, its state and
the URLs `/1.0/containers/<name>/snapshots/<snap>` of its snapshots in the
order of the datastore; a container for which one of the three steps fails
contributes nothing. -/
def recursiveListingSpec {σ : Type} (d : Daemon σ) :
    List String → World σ → List (String × ContainerState × List String) × World σ
  | [], w => ([], w)
  | cname :: rest, w =>
    match containerLXDLoad d cname w with
    | (.error _, w) => recursiveListingSpec d rest w
    | (.ok c, w) =>
      match dbContainerGetSnapshots d cname w with
      | (.error _, w) => recursiveListingSpec d rest w
      | (.ok snaps, w) =>
        match c.RenderState w with
        | (.error _, w) => recursiveListingSpec d rest w
        | (.ok state, w) =>
          ((cname, state,
              snaps.toList.map (fun s => "/1.0/containers/" ++ cname ++ "/snapshots/" ++ s))
            :: (recursiveListingSpec d rest w).1,
            (recursiveListingSpec d rest w).2)

/-- A daemon with the containers `c1`, `c2` and `c3`: the datastore is locked
when the snapshots of `c2` are listed, and `c3` cannot be loaded. -/
def demoDaemonLocked : Daemon Nat where
  listContainers := fun _ s => (.ok (.mk ["c1", "c2", "c3"]), s + 1)
  getSnapshots := fun cname s =>
    if cname = "c2" then (.error (.other 5 "database is locked"), s + 1)
    else (.ok (.mk ["snap0", "snap1"]), s + 1)
  loadContainer := fun name s =>
    if name = "c3" then (.error .NoSuchObjectError, s + 1)
    else (.ok (demoContainer name), s + 1)
  isRecursionRequest := fun r => r.query.contains ("recursion", "1")

/-- A request for the list of containers with recursion. -/
def demoListRecursion : Request :=
  { name := "", body := .ok ⟨none, none, none⟩, query := [("recursion", "1")] }

/-! ## Theorems -/

/-- C1. `SmartError` is this mapping: nil gives the empty-success sync
response; `os.ErrNotExist`, `sql.ErrNoRows` and `NoSuchObjectError` give the
404 response; `os.ErrPermission` gives the 403 response;
`DbErrAlreadyDefined` and `sqlite3.ErrConstraintUnique` give the 409
response; every other error gives code 500 with the error's message. -/
theorem SmartError_mapping {σ : Type} :
    (SmartError none : Response σ) = .sync ⟨true, .emptyMap⟩ ∧
    (SmartError (some .osErrNotExist) : Response σ) = .error ⟨404, "not found"⟩ ∧
    (SmartError (some .sqlErrNoRows) : Response σ) = .error ⟨404, "not found"⟩ ∧
    (SmartError (some .NoSuchObjectError) : Response σ) = .error ⟨404, "not found"⟩ ∧
    (SmartError (some .osErrPermission) : Response σ) = .error ⟨403, "not authorized"⟩ ∧
    (SmartError (some .DbErrAlreadyDefined) : Response σ) = .error ⟨409, "already exists"⟩ ∧
    (SmartError (some .sqlite3ErrConstraintUnique) : Response σ)
      = .error ⟨409, "already exists"⟩ ∧
    (∀ e : GoError, e ≠ .osErrNotExist → e ≠ .sqlErrNoRows → e ≠ .NoSuchObjectError →
      e ≠ .osErrPermission → e ≠ .DbErrAlreadyDefined → e ≠ .sqlite3ErrConstraintUnique →
      (SmartError (some e) : Response σ) = .error ⟨500, e.Error⟩) := by
  refine ⟨rfl, rfl, rfl, rfl, rfl, rfl, rfl, ?_⟩
  intro e h1 h2 h3 h4 h5 h6
  cases e <;> first | contradiction | rfl

/-! ### The state handler -/

/-- Passing an error or its absence on unchanged, as the closures do. -/
theorem passErr_eq {σ : Type} (x : error × World σ) :
    (match x with
      | (some err, w) => ((some err : error), w)
      | (none, w) => (none, w)) = x := by
  rcases x with ⟨_ | e, w⟩ <;> rfl

theorem doStart_eq {σ : Type} (c : Container σ) (w : World σ) :
    containerStatePut.doStart c w = c.Start w := passErr_eq _

theorem doStop_eq {σ : Type} (c : Container σ) (w : World σ) :
    containerStatePut.doStop c w = c.Stop w := passErr_eq _

theorem doShutdown_eq {σ : Type} (c : Container σ) (raw : containerStatePutReq) (w : World σ) :
    containerStatePut.doShutdown c raw w
      = c.Shutdown (Duration.mul (Duration.ofInt raw.Timeout) Second) w := passErr_eq _

/-- The restart closure: the stop phase, then `Start` when it succeeded. -/
theorem doRestart_eq {σ : Type} (c : Container σ) (raw : containerStatePutReq) (w : World σ)
    (phase : error × World σ)
    (hphase : phase = if raw.Timeout = 0 ∨ raw.Force = true then c.Stop w
      else c.Shutdown (Duration.mul (Duration.ofInt raw.Timeout) Second) w) :
    containerStatePut.doRestart c raw w =
      match phase.1 with
      | some err => (some err, phase.2)
      | none => c.Start phase.2 := by
  subst hphase
  unfold containerStatePut.doRestart
  by_cases h : raw.Timeout = 0 ∨ raw.Force = true
  · have h2 : (decide (raw.Timeout = 0) || raw.Force) = true := by
      rcases h with h | h <;> simp [h]
    simp only [h2, if_true, h]
    rcases hs : c.Stop w with ⟨_ | e, w2⟩
    · simp only [hs]; exact passErr_eq _
    · simp only [hs]
  · have h2 : (decide (raw.Timeout = 0) || raw.Force) = false := by
      simp only [not_or] at h
      simp [h.1, h.2]
    simp only [h2, h, if_false, Bool.false_eq_true]
    rcases hs : c.Shutdown (Duration.mul (Duration.ofInt raw.Timeout) Second) w with ⟨_ | e, w2⟩
    · simp only [hs]; exact passErr_eq _
    · simp only [hs]

/-- What the handler returns once the body is decoded and the container
loaded. -/
theorem containerStatePut_loaded {σ : Type} (d : Daemon σ) (r : Request) (w w1 : World σ)
    (b : StateBody) (c : Container σ) (hbody : r.body = .ok b)
    (hload : containerLXDLoad d r.name w = (.ok c, w1)) :
    containerStatePut d r w =
      if (jsonDecode b rawDefault).Action = "start" then
        (AsyncResponse (some (shared.OperationWrap (containerStatePut.doStart c))) none, w1)
      else if (jsonDecode b rawDefault).Action = "stop" then
        if (jsonDecode b rawDefault).Timeout = 0 ∨ (jsonDecode b rawDefault).Force = true then
          (AsyncResponse (some (shared.OperationWrap (containerStatePut.doStop c))) none, w1)
        else
          (AsyncResponse (some (shared.OperationWrap
            (containerStatePut.doShutdown c (jsonDecode b rawDefault)))) none, w1)
      else if (jsonDecode b rawDefault).Action = "restart" then
        (AsyncResponse (some (shared.OperationWrap
          (containerStatePut.doRestart c (jsonDecode b rawDefault)))) none, w1)
      else if (jsonDecode b rawDefault).Action = "freeze" then
        (AsyncResponse (some (shared.OperationWrap c.Freeze)) none, w1)
      else if (jsonDecode b rawDefault).Action = "unfreeze" then
        (AsyncResponse (some (shared.OperationWrap c.Unfreeze)) none, w1)
      else
        (BadRequest (.other 0 ("unknown action " ++ (jsonDecode b rawDefault).Action)), w1) := by
  unfold containerStatePut
  simp only [hbody, hload, shared.Start, shared.Stop, shared.Restart, shared.Freeze,
    shared.Unfreeze, Bool.or_eq_true, decide_eq_true_eq]

theorem call_log {σ α : Type} (ev : Event) (f : σ → α × σ) (w : World σ) :
    (World.call ev f w).2.log = w.log ++ [ev] := rfl

theorem wrapInt64_of_range (x : Int) (h1 : -9223372036854775808 ≤ x)
    (h2 : x < 9223372036854775808) : wrapInt64 x = x := by
  unfold wrapInt64
  omega

/-- The multiplication by `time.Second` is exact for a timeout of up to
9223372036 seconds either way. -/
theorem seconds_exact (t : Int) (h1 : -9223372036 ≤ t) (h2 : t ≤ 9223372036) :
    Duration.mul (Duration.ofInt t) Second = t * 1000000000 := by
  have e1 : Duration.ofInt t = t := wrapInt64_of_range t (by omega) (by omega)
  rw [e1]
  exact wrapInt64_of_range _ (by unfold Second; omega) (by unfold Second; omega)

theorem wrapInt64_range (x : Int) :
    -9223372036854775808 ≤ wrapInt64 x ∧ wrapInt64 x < 9223372036854775808 := by
  unfold wrapInt64
  omega

/-- The multiplication by `time.Second` is exact for the timeouts of up to
9223372036 seconds either way, and for no other. -/
theorem seconds_exact_iff (t : Int) :
    Duration.mul (Duration.ofInt t) Second = t * 1000000000 ↔
      (-9223372036 ≤ t ∧ t ≤ 9223372036) := by
  constructor
  · intro h
    have hr := wrapInt64_range (Duration.ofInt t * Second)
    have h2 : wrapInt64 (Duration.ofInt t * Second) = t * 1000000000 := h
    rw [h2] at hr
    constructor <;> omega
  · intro h
    exact seconds_exact t h.1 h.2

/-- The calls the restart closure makes: the stop phase, then `Start` when
the stop phase succeeded. -/
theorem doRestart_log {σ : Type} (c : Container σ) (raw : containerStatePutReq) (w : World σ) :
    (containerStatePut.doRestart c raw w).2.log =
      w.log ++ (Event.verb c.name (if raw.Timeout = 0 ∨ raw.Force = true then Verb.Stop
          else Verb.Shutdown (Duration.mul (Duration.ofInt raw.Timeout) Second)) ::
        (if (if raw.Timeout = 0 ∨ raw.Force = true then c.Stop w
            else c.Shutdown (Duration.mul (Duration.ofInt raw.Timeout) Second) w).1 = none
          then [Event.verb c.name .Start] else [])) := by
  rw [doRestart_eq c raw w _ rfl]
  by_cases h : raw.Timeout = 0 ∨ raw.Force = true
  · simp only [h, if_true]
    rcases hs : (c.Stop w).1 with _ | e
    · simp only [if_true]
      rw [Container.Start, call_log, Container.Stop, call_log, List.append_assoc]
      rfl
    · simp only [reduceCtorEq, if_false]
      rw [Container.Stop, call_log]
  · simp only [h, if_false]
    rcases hs : (c.Shutdown (Duration.mul (Duration.ofInt raw.Timeout) Second) w).1 with _ | e
    · simp only [if_true]
      rw [Container.Start, call_log, Container.Shutdown, call_log, List.append_assoc]
      rfl
    · simp only [reduceCtorEq, if_false]
      rw [Container.Shutdown, call_log]

/-- The calls of the operation body of a stop or restart request: `Stop`
exactly on the force or zero-timeout path, `Shutdown` with the timeout in
seconds exactly on the other path. -/
theorem stop_restart_calls {σ : Type} (d : Daemon σ) (r : Request) (w w1 : World σ)
    (b : StateBody) (c : Container σ) (hbody : r.body = .ok b)
    (hload : containerLXDLoad d r.name w = (.ok c, w1))
    (hact : (jsonDecode b rawDefault).Action = "stop" ∨
      (jsonDecode b rawDefault).Action = "restart") :
    ∃ run, containerStatePut d r w = (AsyncResponse (some run) none, w1) ∧
      ∀ w0 : World σ, ∃ calls, (run w0).2.log = w0.log ++ calls ∧
        (Event.verb c.name .Stop ∈ calls ↔
          ((jsonDecode b rawDefault).Force = true ∨ (jsonDecode b rawDefault).Timeout = 0)) ∧
        (∀ t, Event.verb c.name (.Shutdown t) ∈ calls ↔
          (¬ ((jsonDecode b rawDefault).Force = true ∨ (jsonDecode b rawDefault).Timeout = 0) ∧
            t = Duration.mul (Duration.ofInt (jsonDecode b rawDefault).Timeout) Second)) := by
  rw [containerStatePut_loaded d r w w1 b c hbody hload]
  generalize jsonDecode b rawDefault = raw at hact ⊢
  by_cases hard : raw.Timeout = 0 ∨ raw.Force = true
  · have hard2 : raw.Force = true ∨ raw.Timeout = 0 := hard.symm
    rcases hact with ha | ha
    · refine ⟨_, by simp only [ha, hard, if_true]; rfl, fun w0 => ⟨[.verb c.name .Stop], ?_, ?_, ?_⟩⟩
      · show (containerStatePut.doStop c w0).2.log = _
        rw [doStop_eq]; rfl
      · simp [hard2]
      · simp [hard2]
    · refine ⟨_, by simp only [ha]; rfl, fun w0 => ⟨_, doRestart_log c raw w0, ?_, ?_⟩⟩
      · simp [hard, hard2]
      · intro t
        simp only [hard, hard2, if_true, not_true_eq_false, false_and, iff_false]
        split <;> simp
  · have hard2 : ¬ (raw.Force = true ∨ raw.Timeout = 0) := fun h => hard h.symm
    rcases hact with ha | ha
    · refine ⟨_, by simp only [ha, hard, if_false]; rfl, fun w0 =>
        ⟨[.verb c.name (.Shutdown (Duration.mul (Duration.ofInt raw.Timeout) Second))],
          ?_, ?_, ?_⟩⟩
      · show (containerStatePut.doShutdown c raw w0).2.log = _
        rw [doShutdown_eq]; rfl
      · simp [hard2]
      · intro t
        simp [hard2]
    · refine ⟨_, by simp only [ha]; rfl, fun w0 => ⟨_, doRestart_log c raw w0, ?_, ?_⟩⟩
      · simp only [hard, hard2, if_false, iff_false]
        split <;> simp
      · intro t
        simp only [hard, hard2, if_false, not_false_eq_true, true_and]
        split <;> simp

/-- C2, as amended. For a stop or restart request on a container that
loads, the operation body calls the hard `Stop` (and never `Shutdown`)
exactly when force is true or the timeout is 0, whatever the other field;
otherwise it calls `Shutdown` with `time.Duration(timeout) * time.Second`
and never `Stop`. That duration, an `int64` count of nanoseconds, is
`timeout` seconds exactly when the timeout is of up to 9223372036 seconds
either way; for any other timeout the product wraps. -/
theorem containerStatePut_stop_path {σ : Type} (d : Daemon σ) (r : Request) (w w1 : World σ)
    (b : StateBody) (c : Container σ) (hbody : r.body = .ok b)
    (hload : containerLXDLoad d r.name w = (.ok c, w1))
    (hact : (jsonDecode b rawDefault).Action = "stop" ∨
      (jsonDecode b rawDefault).Action = "restart") :
    (∃ run, containerStatePut d r w = (AsyncResponse (some run) none, w1) ∧
      ∀ w0 : World σ, ∃ calls, (run w0).2.log = w0.log ++ calls ∧
        (Event.verb c.name .Stop ∈ calls ↔
          ((jsonDecode b rawDefault).Force = true ∨ (jsonDecode b rawDefault).Timeout = 0)) ∧
        (∀ t, Event.verb c.name (.Shutdown t) ∈ calls ↔
          (¬ ((jsonDecode b rawDefault).Force = true ∨ (jsonDecode b rawDefault).Timeout = 0) ∧
            t = Duration.mul (Duration.ofInt (jsonDecode b rawDefault).Timeout) Second))) ∧
    (Duration.mul (Duration.ofInt (jsonDecode b rawDefault).Timeout) Second
        = (jsonDecode b rawDefault).Timeout * 1000000000 ↔
      (-9223372036 ≤ (jsonDecode b rawDefault).Timeout ∧
        (jsonDecode b rawDefault).Timeout ≤ 9223372036)) :=
  ⟨stop_restart_calls d r w w1 b c hbody hload hact, seconds_exact_iff _⟩

/-- C2 as amended, at the request `{"action": "stop", "timeout": 30}` for
`c1`: the body calls `Shutdown` with 30 seconds and not `Stop`. -/
theorem containerStatePut_stop_path_witness :
    (demoRequest "c1" demoStop).body = .ok demoStop ∧
    containerLXDLoad demoDaemon (demoRequest "c1" demoStop).name demoWorld
      = (.ok (demoContainer "c1"), ⟨1, [.containerLXDLoad "c1"]⟩) ∧
    ((jsonDecode demoStop rawDefault).Action = "stop" ∨
      (jsonDecode demoStop rawDefault).Action = "restart") ∧
    ((∃ run, containerStatePut demoDaemon (demoRequest "c1" demoStop) demoWorld
        = (AsyncResponse (some run) none, ⟨1, [.containerLXDLoad "c1"]⟩) ∧
      ∀ w0 : World Nat, ∃ calls, (run w0).2.log = w0.log ++ calls ∧
        (Event.verb (demoContainer "c1").name .Stop ∈ calls ↔
          ((jsonDecode demoStop rawDefault).Force = true ∨
            (jsonDecode demoStop rawDefault).Timeout = 0)) ∧
        (∀ t, Event.verb (demoContainer "c1").name (.Shutdown t) ∈ calls ↔
          (¬ ((jsonDecode demoStop rawDefault).Force = true ∨
              (jsonDecode demoStop rawDefault).Timeout = 0) ∧
            t = Duration.mul (Duration.ofInt (jsonDecode demoStop rawDefault).Timeout) Second))) ∧
    (Duration.mul (Duration.ofInt (jsonDecode demoStop rawDefault).Timeout) Second
        = (jsonDecode demoStop rawDefault).Timeout * 1000000000 ↔
      (-9223372036 ≤ (jsonDecode demoStop rawDefault).Timeout ∧
        (jsonDecode demoStop rawDefault).Timeout ≤ 9223372036))) :=
  ⟨rfl, rfl, Or.inl rfl,
    containerStatePut_stop_path demoDaemon (demoRequest "c1" demoStop) demoWorld
      ⟨1, [.containerLXDLoad "c1"]⟩ demoStop (demoContainer "c1") rfl rfl (Or.inl rfl)⟩

/-- C2 as first stated fails at the request
`{"action": "stop", "timeout": 9223372037}` for `c1`: force is absent and the
timeout is not 0, the handler returns the asynchronous response, and its
operation body calls `Shutdown` once, with -9223372036709551616 nanoseconds,
the wrapped `int64` product, and not with 9223372037 seconds. -/
theorem containerStatePut_shutdown_wraps :
    (jsonDecode demoStopLong rawDefault).Force = false ∧
    (jsonDecode demoStopLong rawDefault).Timeout = 9223372037 ∧
    ∃ run, containerStatePut demoDaemon (demoRequest "c1" demoStopLong) demoWorld
        = (AsyncResponse (some run) none, ⟨1, [.containerLXDLoad "c1"]⟩) ∧
      (run demoWorld).2.log = [.verb "c1" (.Shutdown (-9223372036709551616))] ∧
      Event.verb "c1" (.Shutdown (9223372037 * 1000000000)) ∉ (run demoWorld).2.log :=
  ⟨rfl, rfl, _, rfl, by decide, by decide⟩

/-- C3. For a restart request, if the stop phase of the operation body
(`Stop` on the force or zero-timeout path, `Shutdown` otherwise) returns an
error, the body returns that error and makes no call after the stop phase,
so `Start` is not invoked; if the stop phase succeeds, `Start` is invoked
once, right after it, and the result of the body is the result of `Start`. -/
theorem containerStatePut_restart_phases {σ : Type} (d : Daemon σ) (r : Request)
    (w w1 : World σ) (b : StateBody) (c : Container σ) (hbody : r.body = .ok b)
    (hload : containerLXDLoad d r.name w = (.ok c, w1))
    (hact : (jsonDecode b rawDefault).Action = "restart") :
    ∃ run, containerStatePut d r w = (AsyncResponse (some run) none, w1) ∧
      ∀ (w0 : World σ) (stopVerb : Verb) (phase : error × World σ),
        stopVerb = (if (jsonDecode b rawDefault).Timeout = 0 ∨
            (jsonDecode b rawDefault).Force = true then Verb.Stop
          else Verb.Shutdown
            (Duration.mul (Duration.ofInt (jsonDecode b rawDefault).Timeout) Second)) →
        phase = World.call (.verb c.name stopVerb) (c.exec stopVerb) w0 →
        (∀ e, phase.1 = some e →
          (run w0).1.Error = some e ∧ (run w0).2 = phase.2 ∧
          (run w0).2.log = w0.log ++ [.verb c.name stopVerb]) ∧
        (phase.1 = none →
          (run w0).1.Error = (c.Start phase.2).1 ∧ (run w0).2 = (c.Start phase.2).2 ∧
          (run w0).2.log = w0.log ++ [.verb c.name stopVerb, .verb c.name .Start]) := by
  rw [containerStatePut_loaded d r w w1 b c hbody hload]
  generalize jsonDecode b rawDefault = raw at hact ⊢
  refine ⟨_, by simp only [hact]; rfl, ?_⟩
  intro w0 stopVerb phase hverb hphase
  have hrun : shared.OperationWrap (containerStatePut.doRestart c raw) w0 =
      ({ Metadata := none, Error := (containerStatePut.doRestart c raw w0).1 },
        (containerStatePut.doRestart c raw w0).2) := rfl
  have hph : phase = if raw.Timeout = 0 ∨ raw.Force = true then c.Stop w0
      else c.Shutdown (Duration.mul (Duration.ofInt raw.Timeout) Second) w0 := by
    rw [hphase, hverb]
    split <;> rfl
  have hlog : phase.2.log = w0.log ++ [.verb c.name stopVerb] := by
    rw [hphase]; rfl
  rw [hrun, doRestart_eq c raw w0 phase hph]
  constructor
  · intro e he
    simp only [he]
    exact ⟨trivial, trivial, hlog⟩
  · intro he
    simp only [he]
    refine ⟨trivial, trivial, ?_⟩
    rw [Container.Start, call_log, hlog, List.append_assoc]
    rfl

/-- C3, at the request `{"action": "restart"}` for `c1`, whose graceful
shutdown times out. -/
theorem containerStatePut_restart_phases_witness :
    (demoRequest "c1" demoRestart).body = .ok demoRestart ∧
    containerLXDLoad demoDaemon (demoRequest "c1" demoRestart).name demoWorld
      = (.ok (demoContainer "c1"), ⟨1, [.containerLXDLoad "c1"]⟩) ∧
    (jsonDecode demoRestart rawDefault).Action = "restart" ∧
    ∃ run, containerStatePut demoDaemon (demoRequest "c1" demoRestart) demoWorld
        = (AsyncResponse (some run) none, ⟨1, [.containerLXDLoad "c1"]⟩) ∧
      ∀ (w0 : World Nat) (stopVerb : Verb) (phase : error × World Nat),
        stopVerb = (if (jsonDecode demoRestart rawDefault).Timeout = 0 ∨
            (jsonDecode demoRestart rawDefault).Force = true then Verb.Stop
          else Verb.Shutdown
            (Duration.mul (Duration.ofInt (jsonDecode demoRestart rawDefault).Timeout) Second)) →
        phase = World.call (.verb (demoContainer "c1").name stopVerb)
          ((demoContainer "c1").exec stopVerb) w0 →
        (∀ e, phase.1 = some e →
          (run w0).1.Error = some e ∧ (run w0).2 = phase.2 ∧
          (run w0).2.log = w0.log ++ [.verb (demoContainer "c1").name stopVerb]) ∧
        (phase.1 = none →
          (run w0).1.Error = ((demoContainer "c1").Start phase.2).1 ∧
          (run w0).2 = ((demoContainer "c1").Start phase.2).2 ∧
          (run w0).2.log = w0.log ++ [.verb (demoContainer "c1").name stopVerb,
            .verb (demoContainer "c1").name .Start]) :=
  ⟨rfl, rfl, rfl,
    containerStatePut_restart_phases demoDaemon (demoRequest "c1" demoRestart) demoWorld
      ⟨1, [.containerLXDLoad "c1"]⟩ demoRestart (demoContainer "c1") rfl rfl rfl⟩

/-- C5. For a state request whose body decodes and whose container loads:
an action other than start, stop, restart, freeze, unfreeze gives the 400
response with message `unknown action <action>`, and the only call the
handler has made is the load of the container (no operation, no lifecycle
verb); one of the five actions gives an asynchronous response with no cancel
function. -/
theorem containerStatePut_actions {σ : Type} (d : Daemon σ) (r : Request) (w w1 : World σ)
    (b : StateBody) (c : Container σ) (hbody : r.body = .ok b)
    (hload : containerLXDLoad d r.name w = (.ok c, w1)) :
    ((jsonDecode b rawDefault).Action ∉ ["start", "stop", "restart", "freeze", "unfreeze"] →
      containerStatePut d r w
        = (.error ⟨400, "unknown action " ++ (jsonDecode b rawDefault).Action⟩, w1) ∧
      (containerStatePut d r w).2.log = w.log ++ [.containerLXDLoad r.name]) ∧
    ((jsonDecode b rawDefault).Action ∈ ["start", "stop", "restart", "freeze", "unfreeze"] →
      ∃ run, containerStatePut d r w =
        (.async { run := some run, cancel := none, ws := none, resources := none,
                  metadata := none }, w1)) := by
  have hlog : w1.log = w.log ++ [.containerLXDLoad r.name] := by
    have := congrArg (fun x => x.2.log) hload
    simpa [containerLXDLoad, call_log] using this.symm
  rw [containerStatePut_loaded d r w w1 b c hbody hload]
  generalize jsonDecode b rawDefault = raw
  constructor
  · intro h
    simp only [List.mem_cons, List.mem_singleton, List.not_mem_nil, or_false, not_or] at h
    obtain ⟨h1, h2, h3, h4, h5⟩ := h
    simp only [h1, h2, h3, h4, h5, if_false]
    exact ⟨rfl, hlog⟩
  · intro h
    by_cases h1 : raw.Action = "start"
    · exact ⟨_, by simp only [h1, if_true]; rfl⟩
    by_cases h2 : raw.Action = "stop"
    · by_cases hard : raw.Timeout = 0 ∨ raw.Force = true
      · exact ⟨_, by simp only [h1, h2, hard, if_true, if_false]; rfl⟩
      · exact ⟨_, by simp only [h1, h2, hard, if_true, if_false]; rfl⟩
    by_cases h3 : raw.Action = "restart"
    · exact ⟨_, by simp only [h1, h2, h3, if_true, if_false]; rfl⟩
    by_cases h4 : raw.Action = "freeze"
    · exact ⟨_, by simp only [h1, h2, h3, h4, if_true, if_false]; rfl⟩
    by_cases h5 : raw.Action = "unfreeze"
    · exact ⟨_, by simp only [h1, h2, h3, h4, h5, if_true, if_false]; rfl⟩
    simp only [List.mem_cons, List.mem_singleton, List.not_mem_nil, or_false] at h
    rcases h with h | h | h | h | h <;> contradiction

/-- C5, at the request `{"action": "reboot"}` for `c1`. -/
theorem containerStatePut_actions_witness :
    (demoRequest "c1" demoReboot).body = .ok demoReboot ∧
    containerLXDLoad demoDaemon (demoRequest "c1" demoReboot).name demoWorld
      = (.ok (demoContainer "c1"), ⟨1, [.containerLXDLoad "c1"]⟩) ∧
    containerStatePut demoDaemon (demoRequest "c1" demoReboot) demoWorld
      = (.error ⟨400, "unknown action reboot"⟩, ⟨1, [.containerLXDLoad "c1"]⟩) :=
  ⟨rfl, rfl,
    ((containerStatePut_actions demoDaemon (demoRequest "c1" demoReboot) demoWorld
      ⟨1, [.containerLXDLoad "c1"]⟩ demoReboot (demoContainer "c1") rfl rfl).1
        (by decide)).1⟩

/-- C7. When the body of a state request has no timeout field, the handler
uses the timeout -1, not 0: for the action stop or restart with force false
or absent, the operation body calls `Shutdown` with -1 second (-1000000000
nanoseconds), with no other duration, and never calls `Stop`. A timeout that
the body has replaces the default: the handler uses it, so that with force
false or absent a timeout of 0 gives the hard `Stop` and any other timeout
gives `Shutdown` with that timeout in seconds. -/
theorem containerStatePut_default_timeout {σ : Type} (d : Daemon σ) (r : Request)
    (w w1 : World σ) (b : StateBody) (c : Container σ) (hbody : r.body = .ok b)
    (hload : containerLXDLoad d r.name w = (.ok c, w1)) :
    (b.timeout = none →
      (jsonDecode b rawDefault).Timeout = -1 ∧
      ((b.action = some "stop" ∨ b.action = some "restart") →
        (b.force = none ∨ b.force = some false) →
        ∃ run, containerStatePut d r w = (AsyncResponse (some run) none, w1) ∧
          ∀ w0 : World σ, ∃ calls, (run w0).2.log = w0.log ++ calls ∧
            Event.verb c.name (.Shutdown (-1000000000)) ∈ calls ∧
            (∀ t, Event.verb c.name (.Shutdown t) ∈ calls → t = -1000000000) ∧
            Event.verb c.name .Stop ∉ calls)) ∧
    (∀ t0, b.timeout = some t0 →
      (jsonDecode b rawDefault).Timeout = t0 ∧
      ((b.action = some "stop" ∨ b.action = some "restart") →
        (b.force = none ∨ b.force = some false) →
        ∃ run, containerStatePut d r w = (AsyncResponse (some run) none, w1) ∧
          ∀ w0 : World σ, ∃ calls, (run w0).2.log = w0.log ++ calls ∧
            (t0 = 0 → Event.verb c.name .Stop ∈ calls ∧
              ∀ t, Event.verb c.name (.Shutdown t) ∉ calls) ∧
            (t0 ≠ 0 →
              Event.verb c.name (.Shutdown (Duration.mul (Duration.ofInt t0) Second)) ∈ calls ∧
              (∀ t, Event.verb c.name (.Shutdown t) ∈ calls →
                t = Duration.mul (Duration.ofInt t0) Second) ∧
              Event.verb c.name .Stop ∉ calls))) := by
  have hA : (b.action = some "stop" ∨ b.action = some "restart") →
      ((jsonDecode b rawDefault).Action = "stop" ∨
        (jsonDecode b rawDefault).Action = "restart") := by
    rintro (h | h)
    · left; simp [jsonDecode, h]
    · right; simp [jsonDecode, h]
  have hF : (b.force = none ∨ b.force = some false) →
      (jsonDecode b rawDefault).Force = false := by
    rintro (h | h) <;> simp [jsonDecode, h, rawDefault]
  constructor
  · intro ht
    have hT : (jsonDecode b rawDefault).Timeout = -1 := by simp [jsonDecode, ht, rawDefault]
    refine ⟨hT, fun hact hforce => ?_⟩
    obtain ⟨run, hrun, hcalls⟩ := stop_restart_calls d r w w1 b c hbody hload (hA hact)
    refine ⟨run, hrun, fun w0 => ?_⟩
    obtain ⟨calls, hlog, hstop, hshut⟩ := hcalls w0
    rw [hT, hF hforce] at hstop hshut
    have hd : Duration.mul (Duration.ofInt (-1)) Second = -1000000000 :=
      seconds_exact (-1) (by decide) (by decide)
    rw [hd] at hshut
    refine ⟨calls, hlog, (hshut _).2 ⟨by decide, rfl⟩, fun t h => ((hshut t).1 h).2, ?_⟩
    intro h
    have := hstop.1 h
    revert this
    decide
  · intro t0 ht
    have hT : (jsonDecode b rawDefault).Timeout = t0 := by simp [jsonDecode, ht]
    refine ⟨hT, fun hact hforce => ?_⟩
    obtain ⟨run, hrun, hcalls⟩ := stop_restart_calls d r w w1 b c hbody hload (hA hact)
    refine ⟨run, hrun, fun w0 => ?_⟩
    obtain ⟨calls, hlog, hstop, hshut⟩ := hcalls w0
    rw [hT, hF hforce] at hstop hshut
    refine ⟨calls, hlog, fun h0 => ⟨hstop.2 (Or.inr h0), fun t h => ?_⟩, fun h0 => ⟨?_, ?_, ?_⟩⟩
    · exact ((hshut t).1 h).1 (Or.inr h0)
    · exact (hshut _).2 ⟨by simp [h0], rfl⟩
    · exact fun t h => ((hshut t).1 h).2
    · intro h
      rcases hstop.1 h with h | h
      · exact absurd h (by decide)
      · exact h0 h

/-- C7, at the request `{"action": "restart"}` for `c1`: no timeout and no
force in the body. -/
theorem containerStatePut_default_timeout_witness :
    (demoRequest "c1" demoRestart).body = .ok demoRestart ∧
    containerLXDLoad demoDaemon (demoRequest "c1" demoRestart).name demoWorld
      = (.ok (demoContainer "c1"), ⟨1, [.containerLXDLoad "c1"]⟩) ∧
    (jsonDecode demoRestart rawDefault).Timeout = -1 ∧
    ∃ run, containerStatePut demoDaemon (demoRequest "c1" demoRestart) demoWorld
        = (AsyncResponse (some run) none, ⟨1, [.containerLXDLoad "c1"]⟩) ∧
      ∀ w0 : World Nat, ∃ calls, (run w0).2.log = w0.log ++ calls ∧
        Event.verb (demoContainer "c1").name (.Shutdown (-1000000000)) ∈ calls ∧
        (∀ t, Event.verb (demoContainer "c1").name (.Shutdown t) ∈ calls → t = -1000000000) ∧
        Event.verb (demoContainer "c1").name .Stop ∉ calls :=
  ⟨rfl, rfl, rfl,
    ((containerStatePut_default_timeout demoDaemon (demoRequest "c1" demoRestart) demoWorld
      ⟨1, [.containerLXDLoad "c1"]⟩ demoRestart (demoContainer "c1") rfl rfl).1 rfl).2
        (Or.inr rfl) (Or.inl rfl)⟩

/-! ### Listing containers -/

/-- The URL of a container, as `fmt.Sprintf` builds it. -/
theorem container_url (name : String) :
    "/" ++ APIVersion ++ "/containers/" ++ name = "/1.0/containers/" ++ name := by
  have h : "/" ++ APIVersion ++ "/containers/" = "/1.0/containers/" := by decide
  rw [h]

/-- Without recursion the loop appends the URL of each container, in order,
and calls no collaborator. -/
theorem loop_no_recursion {σ : Type} (d : Daemon σ) (names : List String)
    (resultString : Slice String) (resultMap : Slice ContainerInfo) (w : World σ) :
    doContainersGet.loop d false names resultString resultMap w =
      ((match names with
        | [] => resultString
        | _ :: _ => .mk (resultString.toList ++ names.map (fun n => "/1.0/containers/" ++ n)),
        resultMap), w) := by
  induction names generalizing resultString with
  | nil => rfl
  | cons n rest ih =>
    simp only [doContainersGet.loop, Bool.not_false, if_true, ih]
    cases rest with
    | nil => simp [Slice.append, container_url]
    | cons m rest => simp [Slice.append, Slice.toList, container_url]

/-- C10. Without recursion, `doContainersGet` turns the list of names the
datastore returns into the list, of the same length and order, of the URLs
`/1.0/containers/<name>`, an empty non-nil list when there is no container;
and when the datastore listing fails, `doContainersGet` returns that error
and a nil result, with and without recursion. -/
theorem doContainersGet_urls {σ : Type} (d : Daemon σ) (w w1 : World σ) :
    (∀ names : Slice String, dbContainersList d .cTypeRegular w = (.ok names, w1) →
      doContainersGet d false w =
        ((.strings (.mk (names.toList.map (fun n => "/1.0/containers/" ++ n))), none), w1)) ∧
    (∀ (e : GoError) (recursion : Bool),
      dbContainersList d .cTypeRegular w = (.error e, w1) →
      doContainersGet d recursion w = ((.nil, some e), w1)) := by
  constructor
  · intro names h
    unfold doContainersGet
    simp only [h, loop_no_recursion, Bool.not_false, if_true]
    cases names.toList <;> simp [Slice.toList]
  · intro e recursion h
    unfold doContainersGet
    simp only [h]

/-- C10, at the demo datastore once its lock is gone: two containers, and
the locked datastore's error handed on in both modes. -/
theorem doContainersGet_urls_witness :
    doContainersGet demoDaemon false ⟨3, []⟩ =
      ((.strings (.mk ["/1.0/containers/c1", "/1.0/containers/c2"]), none),
        ⟨4, [.dbContainersList .cTypeRegular]⟩) ∧
    doContainersGet demoDaemon true demoWorld =
      ((.nil, some (.other 5 "database is locked")), ⟨1, [.dbContainersList .cTypeRegular]⟩) :=
  ⟨(doContainersGet_urls demoDaemon ⟨3, []⟩ ⟨4, [.dbContainersList .cTypeRegular]⟩).1
      (.mk ["c1", "c2"]) rfl,
    (doContainersGet_urls demoDaemon demoWorld ⟨1, [.dbContainersList .cTypeRegular]⟩).2
      (.other 5 "database is locked") true rfl⟩

theorem doContainerGet_log {σ : Type} (d : Daemon σ) (cname : String) (w : World σ) :
    ∃ evs, (doContainerGet d cname w).2.log = w.log ++ evs ∧ ∀ e ∈ evs, e.perContainer := by
  unfold doContainerGet
  rcases h1 : d.loadContainer cname w.st with ⟨_ | c, s1⟩
  · refine ⟨[.containerLXDLoad cname], ?_, by simp [Event.perContainer]⟩
    simp [containerLXDLoad, World.call, h1]
  · rcases h2 : d.getSnapshots cname s1 with ⟨_ | results, s2⟩
    · refine ⟨[.containerLXDLoad cname, .dbContainerGetSnapshots cname], ?_,
        by simp [Event.perContainer]⟩
      simp [containerLXDLoad, dbContainerGetSnapshots, World.call, h1, h2]
    · rcases h3 : c.render s2 with ⟨_ | cts, s3⟩
      · refine ⟨[.containerLXDLoad cname, .dbContainerGetSnapshots cname, .RenderState c.name],
          ?_, by simp [Event.perContainer]⟩
        simp [containerLXDLoad, dbContainerGetSnapshots, Container.RenderState, World.call,
          h1, h2, h3]
      · refine ⟨[.containerLXDLoad cname, .dbContainerGetSnapshots cname, .RenderState c.name],
          ?_, by simp [Event.perContainer]⟩
        simp [containerLXDLoad, dbContainerGetSnapshots, Container.RenderState, World.call,
          h1, h2, h3]

theorem loop_log {σ : Type} (d : Daemon σ) (recursion : Bool) (names : List String)
    (resultString : Slice String) (resultMap : Slice ContainerInfo) (w : World σ) :
    ∃ evs, (doContainersGet.loop d recursion names resultString resultMap w).2.log
        = w.log ++ evs ∧ ∀ e ∈ evs, e.perContainer := by
  induction names generalizing resultString resultMap w with
  | nil => exact ⟨[], by simp [doContainersGet.loop], by simp⟩
  | cons n rest ih =>
    unfold doContainersGet.loop
    cases recursion with
    | false => simpa using ih _ _ w
    | true =>
      obtain ⟨evs1, h1, p1⟩ := doContainerGet_log d n w
      rcases hget : doContainerGet d n w with ⟨⟨info, _ | resp⟩, w2⟩
      · rw [hget] at h1
        obtain ⟨evs2, h2, p2⟩ := ih resultString (resultMap.append info) w2
        refine ⟨evs1 ++ evs2, ?_, ?_⟩
        · simp only [Bool.not_true, Bool.false_eq_true, if_false, h2]
          simp only [] at h1
          rw [h1, List.append_assoc]
        · intro e he
          rcases List.mem_append.1 he with he | he
          · exact p1 e he
          · exact p2 e he
      · rw [hget] at h1
        obtain ⟨evs2, h2, p2⟩ := ih resultString resultMap w2
        refine ⟨evs1 ++ evs2, ?_, ?_⟩
        · simp only [Bool.not_true, Bool.false_eq_true, if_false, h2]
          simp only [] at h1
          rw [h1, List.append_assoc]
        · intro e he
          rcases List.mem_append.1 he with he | he
          · exact p1 e he
          · exact p2 e he

/-- One call of `doContainersGet` makes one listing call, followed by
per-container calls only. -/
theorem doContainersGet_log {σ : Type} (d : Daemon σ) (recursion : Bool) (w : World σ) :
    ∃ evs, (doContainersGet d recursion w).2.log
        = w.log ++ Event.dbContainersList .cTypeRegular :: evs ∧
      ∀ e ∈ evs, e.perContainer := by
  unfold doContainersGet
  rcases h1 : dbContainersList d .cTypeRegular w with ⟨_ | result, w1⟩
  · refine ⟨[], ?_, by simp⟩
    have := congrArg (fun x => x.2.log) h1
    simpa [dbContainersList, call_log] using this.symm
  · have hw1 : w1.log = w.log ++ [.dbContainersList .cTypeRegular] := by
      have := congrArg (fun x => x.2.log) h1
      simpa [dbContainersList, call_log] using this.symm
    obtain ⟨evs, h2, p2⟩ := loop_log d recursion result.toList (.mk []) (.mk []) w1
    refine ⟨evs, ?_, p2⟩
    simp only []
    rcases hl : doContainersGet.loop d recursion result.toList (.mk []) (.mk []) w1
      with ⟨⟨rs, rm⟩, w2⟩
    rw [hl] at h2
    simp only [] at h2
    cases recursion <;> simp [h2, hw1]

theorem perContainer_count_list (evs : List Event) (h : ∀ e ∈ evs, e.perContainer) :
    evs.count (Event.dbContainersList .cTypeRegular) = 0 :=
  List.count_eq_zero.2 fun hm => h _ hm

theorem perContainer_not_sleep (evs : List Event) (h : ∀ e ∈ evs, e.perContainer)
    (t : Duration) : Event.Sleep t ∉ evs :=
  fun hm => h _ hm

theorem backoff_log {σ : Type} (g : Globals σ) (w : World σ) :
    (containersGet.backoff g w).log =
      w.log ++ [.Debugf "DBERR: containersGet, db is locked" [], .PrintStack,
        .Sleep 1000000000] := by
  simp [containersGet.backoff, time.Sleep, shared.PrintStack, shared.Debugf]
  rfl

/-- The retry loop, by induction on the number of locked attempts. -/
theorem retry_loop_aux {σ : Type} (d : Daemon σ) (g : Globals σ) (r : Request)
    (res : Iface) (err : error) (wf : World σ)
    (hnot : ∀ e, err = some e → g.isDbLockedError (some e) = false) :
    ∀ (n : Nat) (ws : Nat → World σ) (errs : Nat → GoError),
      (∀ i, i < n → ∃ x w1, doContainersGet d (d.isRecursionRequest r) (ws i)
          = ((x, some (errs i)), w1) ∧
        g.isDbLockedError (some (errs i)) = true ∧ ws (i + 1) = containersGet.backoff g w1) →
      doContainersGet d (d.isRecursionRequest r) (ws n) = ((res, err), wf) →
      ∀ fuel, n < fuel →
        ∃ resp final, containersGet d g r fuel (ws 0) = some (resp, final) ∧
          (err = none → resp = SyncResponse true res) ∧
          (∀ e, err = some e → resp = InternalError e) ∧
          ∃ calls, final.log = (ws 0).log ++ calls ∧
            calls.count (Event.dbContainersList .cTypeRegular) = n + 1 ∧
            calls.count (Event.Sleep 1000000000) = n ∧
            ∀ t, Event.Sleep t ∈ calls → t = 1000000000 := by
  intro n
  induction n with
  | zero =>
    intro ws errs _ hlast fuel hfuel
    obtain ⟨f, rfl⟩ : ∃ f, fuel = f + 1 := ⟨fuel - 1, by omega⟩
    obtain ⟨evs, hlog, hp⟩ := doContainersGet_log d (d.isRecursionRequest r) (ws 0)
    rw [hlast] at hlog
    simp only [] at hlog
    unfold containersGet
    rw [hlast]
    cases err with
    | none =>
      refine ⟨_, wf, rfl, fun _ => rfl, fun e h => (by cases h), _, hlog, ?_, ?_, ?_⟩
      · simp [perContainer_count_list evs hp]
      · simp [List.count_eq_zero.2 (perContainer_not_sleep evs hp _)]
      · intro t ht
        simp only [List.mem_cons, reduceCtorEq, false_or] at ht
        exact absurd ht (perContainer_not_sleep evs hp t)
    | some e =>
      refine ⟨InternalError e, shared.Debugf "DBERR: containersGet: error %q" [e.Error] wf, ?_,
        fun h => (by cases h), fun e2 h => (by cases h; rfl),
        Event.dbContainersList .cTypeRegular :: evs
          ++ [.Debugf "DBERR: containersGet: error %q" [e.Error]], ?_, ?_, ?_, ?_⟩
      · simp [hnot e rfl]
      · simp [shared.Debugf, hlog]
      · simp [perContainer_count_list evs hp]
      · simp [List.count_eq_zero.2 (perContainer_not_sleep evs hp _)]
      · intro t ht
        simp only [List.cons_append, List.mem_cons, reduceCtorEq, false_or, List.mem_append,
          List.mem_singleton, or_false, List.not_mem_nil] at ht
        exact absurd ht (perContainer_not_sleep evs hp t)
  | succ n ih =>
    intro ws errs hlocked hlast fuel hfuel
    obtain ⟨f, rfl⟩ : ∃ f, fuel = f + 1 := ⟨fuel - 1, by omega⟩
    obtain ⟨x, w1, hcall, hisl, hnext⟩ := hlocked 0 (by omega)
    obtain ⟨evs, hlog, hp⟩ := doContainersGet_log d (d.isRecursionRequest r) (ws 0)
    rw [hcall] at hlog
    simp only [] at hlog
    obtain ⟨resp, final, hres, hr1, hr2, calls, hcalls, hc1, hc2, hc3⟩ :=
      ih (fun i => ws (i + 1)) (fun i => errs (i + 1))
        (fun i hi => hlocked (i + 1) (by omega)) hlast f (by omega)
    simp only [Nat.zero_add] at hres hcalls
    refine ⟨resp, final, ?_, hr1, hr2, Event.dbContainersList .cTypeRegular :: evs ++
      [.Debugf "DBERR: containersGet, db is locked" [], .PrintStack, .Sleep 1000000000]
        ++ calls, ?_, ?_, ?_, ?_⟩
    · unfold containersGet
      rw [hcall]
      simp only [hisl, Bool.not_true, Bool.false_eq_true, if_false]
      rw [← hnext]
      exact hres
    · rw [hcalls, hnext, backoff_log, hlog]
      simp
    · simp [perContainer_count_list evs hp, hc1]
    · simp [List.count_eq_zero.2 (perContainer_not_sleep evs hp _), hc2]
    · intro t ht
      simp only [List.cons_append, List.mem_cons, reduceCtorEq, false_or, List.mem_append,
        List.mem_singleton, or_false, List.not_mem_nil, Event.Sleep.injEq] at ht
      rcases ht with (ht | ht) | ht
      · exact absurd ht (perContainer_not_sleep evs hp t)
      · exact ht
      · exact hc3 t ht

/-- C4. When the listing call fails `n` times in a row with a
datastore-locked error and then has an outcome that is not one, `containersGet`
(followed for more than `n` iterations) returns: the sync success response
with the listing when the last outcome is a success, the 500 response with
the error's message when it is an error; and the calls made are `n + 1`
datastore listings and `n` sleeps, each of one second. -/
theorem containersGet_retry {σ : Type} (d : Daemon σ) (g : Globals σ) (r : Request)
    (n : Nat) (ws : Nat → World σ) (errs : Nat → GoError) (res : Iface) (err : error)
    (wf : World σ)
    (hlocked : ∀ i, i < n → ∃ x w1, doContainersGet d (d.isRecursionRequest r) (ws i)
        = ((x, some (errs i)), w1) ∧
      g.isDbLockedError (some (errs i)) = true ∧ ws (i + 1) = containersGet.backoff g w1)
    (hlast : doContainersGet d (d.isRecursionRequest r) (ws n) = ((res, err), wf))
    (hnot : ∀ e, err = some e → g.isDbLockedError (some e) = false)
    (fuel : Nat) (hfuel : n < fuel) :
    ∃ resp final, containersGet d g r fuel (ws 0) = some (resp, final) ∧
      (err = none → resp = SyncResponse true res) ∧
      (∀ e, err = some e → resp = .error ⟨500, e.Error⟩) ∧
      ∃ calls, final.log = (ws 0).log ++ calls ∧
        calls.count (Event.dbContainersList .cTypeRegular) = n + 1 ∧
        calls.count (Event.Sleep 1000000000) = n ∧
        ∀ t, Event.Sleep t ∈ calls → t = 1000000000 :=
  retry_loop_aux d g r res err wf hnot n ws errs hlocked hlast fuel hfuel

/-- C4, on the demo daemon, whose datastore is locked three times: four
listing calls, three sleeps, and the list of the two containers. -/
theorem containersGet_retry_witness :
    ∃ resp final, containersGet demoDaemon demoGlobals demoList 4 (demoAttempt 0)
        = some (resp, final) ∧
      ((none : error) = none → resp = SyncResponse true
        (.strings (.mk ["/1.0/containers/c1", "/1.0/containers/c2"]))) ∧
      (∀ e, (none : error) = some e → resp = .error ⟨500, e.Error⟩) ∧
      ∃ calls, final.log = (demoAttempt 0).log ++ calls ∧
        calls.count (Event.dbContainersList .cTypeRegular) = 3 + 1 ∧
        calls.count (Event.Sleep 1000000000) = 3 ∧
        ∀ t, Event.Sleep t ∈ calls → t = 1000000000 :=
  containersGet_retry demoDaemon demoGlobals demoList 3 demoAttempt
    (fun _ => .other 5 "database is locked")
    (.strings (.mk ["/1.0/containers/c1", "/1.0/containers/c2"])) none
    ⟨4, (demoAttempt 3).log ++ [Event.dbContainersList containerType.cTypeRegular]⟩
    (fun i hi => by
      have h : i = 0 ∨ i = 1 ∨ i = 2 := by omega
      rcases h with h | h | h <;> subst h <;> exact ⟨_, _, rfl, rfl, rfl⟩)
    rfl (fun e h => by cases h) 4 (by decide)

/-! ### Rendering an asynchronous response -/

theorem toList_append {α : Type} (s : Slice α) (x : α) :
    (s.append x).toList = s.toList ++ [x] := rfl

theorem foldl_append_toList {α : Type} (f : α → String) (l : List α) (s : Slice String) :
    (l.foldl (fun (values : Slice String) c => values.append (f c)) s).toList
      = s.toList ++ l.map f := by
  induction l generalizing s with
  | nil => simp
  | cons x rest ih =>
    rw [List.foldl_cons, ih, toList_append, List.map_cons, List.append_assoc]
    rfl

/-- The inner loop replaces each entry by its path, in order. -/
theorem expandValues_toList (key : String) (value : Slice String) :
    (expandValues key value).toList
      = value.toList.map (fun c => "/1.0/" ++ key ++ "/" ++ c) := by
  have h : "/" ++ APIVersion ++ "/" = "/1.0/" := by decide
  unfold expandValues
  rw [h, foldl_append_toList (fun c => "/1.0/" ++ key ++ "/" ++ c)]
  rfl

theorem find_cons {V : Type} (k : String) (a : String × V) (l : List (String × V)) :
    (a :: l).find? (fun e => e.1 == k) =
      if a.1 = k then some a else l.find? (fun e => e.1 == k) := by
  by_cases h : a.1 = k <;> simp [List.find?_cons, h]

theorem find_setEntries {V : Type} (k k2 : String) (v : V) (es : List (String × V)) :
    ((setEntries k v es).find? (fun e => e.1 == k2)).map Prod.snd =
      if k = k2 then some v else (es.find? (fun e => e.1 == k2)).map Prod.snd := by
  induction es with
  | nil =>
    simp only [setEntries, find_cons]
    by_cases h : k = k2 <;> simp [h]
  | cons e es ih =>
    by_cases h1 : e.1 = k
    · simp only [setEntries, h1, if_true, find_cons]
      by_cases h2 : k = k2 <;> simp [h2]
    · simp only [setEntries, h1, if_false, find_cons]
      by_cases h3 : e.1 = k2
      · have h2 : ¬ k = k2 := fun h => h1 (h3.trans h.symm)
        simp [h2, h3]
      · simp only [h3, if_false, ih]

/-- Reading a map after `m[k] = v`. -/
theorem get_set {V : Type} (m : GoMap V) (k k2 : String) (v : V) :
    (m.set k v).get? k2 = if k = k2 then some v else m.get? k2 :=
  find_setEntries k k2 v m.entries

theorem find_none_of_not_mem {V : Type} (k : String) (es : List (String × V))
    (h : k ∉ es.map Prod.fst) : es.find? (fun e => e.1 == k) = none := by
  rw [List.find?_eq_none]
  intro e he hk
  exact h (List.mem_map.2 ⟨e, he, by simpa using hk⟩)

/-- The outer loop, from any map built so far: a key of the entries visited
gets its expanded list, any other key keeps what it had. -/
theorem expand_fold (es : List (String × Slice String)) (hnd : (es.map Prod.fst).Nodup)
    (acc : GoMap (Slice String)) (k : String) :
    (es.foldl (fun resources kv => resources.set kv.1 (expandValues kv.1 kv.2)) acc).get? k =
      match es.find? (fun e => e.1 == k) with
      | some e => some (expandValues e.1 e.2)
      | none => acc.get? k := by
  induction es generalizing acc with
  | nil => simp
  | cons e rest ih =>
    have hnd2 : (rest.map Prod.fst).Nodup := (List.nodup_cons.1 hnd).2
    have hnot : e.1 ∉ rest.map Prod.fst := (List.nodup_cons.1 hnd).1
    rw [List.foldl_cons, ih hnd2, find_cons]
    by_cases h : e.1 = k
    · subst h
      rw [find_none_of_not_mem e.1 rest hnot]
      simp [get_set]
    · simp only [h, if_false]
      cases rest.find? (fun e => e.1 == k) with
      | none => simp [get_set, h]
      | some e2 => rfl

/-- The expanded resources: the same keys, and under each key the paths of
the entries it had, in order. -/
theorem expandResources_get (res : GoMap (Slice String)) (k : String) :
    ((expandResources res).get? k).map Slice.toList =
      (res.get? k).map (fun value => value.toList.map (fun c => "/1.0/" ++ k ++ "/" ++ c)) := by
  unfold expandResources
  rw [expand_fold res.entries res.nodup]
  unfold GoMap.get?
  cases h : res.entries.find? (fun e => e.1 == k) with
  | none => simp [GoMap.empty]
  | some e =>
    have hk : e.1 = k := by simpa using List.find?_some h
    simp [expandValues_toList, hk]

theorem mem_keys_iff {V : Type} (m : GoMap V) (k : String) :
    k ∈ m.keys ↔ (m.get? k).isSome = true := by
  unfold GoMap.keys GoMap.get?
  simp only [Option.isSome_map', List.find?_isSome, List.mem_map, beq_iff_eq]

theorem body_facts {σ : Type} (r : asyncResponse σ) (op : String) :
    (asyncResponse.Render.body r op).Type_ = .Async ∧
    (asyncResponse.Render.body r op).Operation = op ∧
    (asyncResponse.Render.body r op).Resources = r.resources.map expandResources := by
  unfold asyncResponse.Render.body
  cases r.resources <;> cases r.ws <;> cases r.metadata <;> exact ⟨rfl, rfl, rfl⟩

/-- What `asyncResponse.Render` does once the operation is created and
started. -/
theorem render_started {σ : Type} (g : Globals σ) (r : asyncResponse σ) (w : ResponseWriter)
    (world : World σ) (op : String) (s1 s2 : σ)
    (hcreate : g.createOp r.metadata r.resources r.run r.cancel r.ws world.st = (.ok op, s1))
    (hstart : g.startOp op s1 = (none, s2)) :
    asyncResponse.Render g r w world =
      ((w.writeErr,
        { w with calls := w.calls ++
          [.HeaderSet "Location" op, .WriteHeader 202,
            .Encode (.async (asyncResponse.Render.body r op))] }),
        { st := s2
          log := world.log ++ [.createOperation, .startOperation op]
            ++ (if g.debug = true then [.DebugJson] else []) }) := by
  unfold asyncResponse.Render
  simp only [createOperation, startOperation, World.call, hcreate, hstart]
  unfold WriteJSON ResponseWriter.WriteHeader ResponseWriter.HeaderSet shared.DebugJson
  cases g.debug
  · simp only [Bool.false_eq_true, if_false, List.append_assoc, List.singleton_append,
      List.append_nil]
    rfl
  · simp only [if_true, List.append_assoc, List.singleton_append, List.cons_append,
      List.nil_append]

/-- C8. When an asynchronous response whose operation is created and started
has a non-nil resources map, the resources of the rendered body have the same
keys, and under each key the list of the same length and order in which each
entry `c` is replaced by `/1.0/<key>/<c>`; when the resources map is nil, the
resources of the body are left nil. -/
theorem asyncResponse_render_resources {σ : Type} (g : Globals σ) (r : asyncResponse σ)
    (w : ResponseWriter) (world : World σ) (op : String) (s1 s2 : σ)
    (hcreate : g.createOp r.metadata r.resources r.run r.cancel r.ws world.st = (.ok op, s1))
    (hstart : g.startOp op s1 = (none, s2)) :
    ∃ body : async,
      (asyncResponse.Render g r w world).1.2.calls = w.calls ++
        [.HeaderSet "Location" op, .WriteHeader 202, .Encode (.async body)] ∧
      (∀ res, r.resources = some res →
        ∃ out, body.Resources = some out ∧
          (∀ k, k ∈ out.keys ↔ k ∈ res.keys) ∧
          ∀ k, (out.get? k).map Slice.toList =
            (res.get? k).map (fun value =>
              value.toList.map (fun c => "/1.0/" ++ k ++ "/" ++ c))) ∧
      (r.resources = none → body.Resources = none) := by
  refine ⟨asyncResponse.Render.body r op, ?_, ?_, ?_⟩
  · rw [render_started g r w world op s1 s2 hcreate hstart]
  · intro res hres
    refine ⟨expandResources res, ?_, ?_, expandResources_get res⟩
    · rw [(body_facts r op).2.2, hres]; rfl
    · intro k
      rw [mem_keys_iff, mem_keys_iff]
      have h := congrArg Option.isSome (expandResources_get res k)
      simpa using h
  · intro hres
    rw [(body_facts r op).2.2, hres]; rfl

/-- C8, on the demo response with the resources `containers: [c1, c2]`. -/
theorem asyncResponse_render_resources_witness :
    demoGlobals.createOp demoAsync.metadata demoAsync.resources demoAsync.run demoAsync.cancel
      demoAsync.ws demoWorld.st = (.ok "/1.0/operations/0", 1) ∧
    demoGlobals.startOp "/1.0/operations/0" 1 = (none, 2) ∧
    ∃ body : async,
      (asyncResponse.Render demoGlobals demoAsync demoWriter demoWorld).1.2.calls
        = demoWriter.calls ++ [.HeaderSet "Location" "/1.0/operations/0", .WriteHeader 202,
          .Encode (.async body)] ∧
      (∀ res, demoAsync.resources = some res →
        ∃ out, body.Resources = some out ∧
          (∀ k, k ∈ out.keys ↔ k ∈ res.keys) ∧
          ∀ k, (out.get? k).map Slice.toList =
            (res.get? k).map (fun value =>
              value.toList.map (fun c => "/1.0/" ++ k ++ "/" ++ c))) ∧
      (demoAsync.resources = none → body.Resources = none) :=
  ⟨rfl, rfl,
    asyncResponse_render_resources demoGlobals demoAsync demoWriter demoWorld
      "/1.0/operations/0" 1 2 rfl rfl⟩

/-- C9. Rendering an asynchronous response creates one operation from the
metadata, resources, run function, cancel function and websocket of the
response, and then starts it. If the creation fails, or if the start fails,
`Render` returns that error and the response writer is untouched (after a
failed creation nothing is started). If both succeed, `Render` sets the
`Location` header to the operation handle, writes the status 202 and encodes
a body of type async whose operation field is that handle. -/
theorem asyncResponse_render_operation {σ : Type} (g : Globals σ) (r : asyncResponse σ)
    (w : ResponseWriter) (world : World σ) :
    (∀ err s1,
      g.createOp r.metadata r.resources r.run r.cancel r.ws world.st = (.error err, s1) →
      asyncResponse.Render g r w world =
        ((some err, w), { st := s1, log := world.log ++ [.createOperation] })) ∧
    (∀ op s1 err s2,
      g.createOp r.metadata r.resources r.run r.cancel r.ws world.st = (.ok op, s1) →
      g.startOp op s1 = (some err, s2) →
      asyncResponse.Render g r w world =
        ((some err, w),
          { st := s2, log := world.log ++ [.createOperation, .startOperation op] })) ∧
    (∀ op s1 s2,
      g.createOp r.metadata r.resources r.run r.cancel r.ws world.st = (.ok op, s1) →
      g.startOp op s1 = (none, s2) →
      ∃ body : async, body.Type_ = .Async ∧ body.Operation = op ∧
        asyncResponse.Render g r w world =
          ((w.writeErr,
            { w with calls := w.calls ++
              [.HeaderSet "Location" op, .WriteHeader 202, .Encode (.async body)] }),
            { st := s2
              log := world.log ++ [.createOperation, .startOperation op]
                ++ (if g.debug = true then [.DebugJson] else []) })) := by
  refine ⟨?_, ?_, ?_⟩
  · intro err s1 hcreate
    unfold asyncResponse.Render
    simp only [createOperation, World.call, hcreate]
  · intro op s1 err s2 hcreate hstart
    unfold asyncResponse.Render
    simp only [createOperation, startOperation, World.call, hcreate, hstart, List.append_assoc,
      List.singleton_append]
  · intro op s1 s2 hcreate hstart
    exact ⟨asyncResponse.Render.body r op, (body_facts r op).1, (body_facts r op).2.1,
      render_started g r w world op s1 s2 hcreate hstart⟩

/-- C9, on the demo response: the operation `/1.0/operations/0` is created
and started, and the writer gets the header, the status and the body. -/
theorem asyncResponse_render_operation_witness :
    ∃ body : async, body.Type_ = .Async ∧ body.Operation = "/1.0/operations/0" ∧
      asyncResponse.Render demoGlobals demoAsync demoWriter demoWorld =
        ((none,
          { calls := [.HeaderSet "Location" "/1.0/operations/0", .WriteHeader 202,
              .Encode (.async body)], writeErr := none }),
          { st := 2, log := [.createOperation, .startOperation "/1.0/operations/0"] }) :=
  (asyncResponse_render_operation demoGlobals demoAsync demoWriter demoWorld).2.2
    "/1.0/operations/0" 1 2 rfl rfl

/-! ### Rendering a file response -/

/-- The name `hosts` stands for neither file of the demo filesystem,
whatever the working directory: its path ends in `s`. -/
theorem resolve_hosts (cwd : String) :
    resolvePath cwd "hosts" ≠ "/var/lib/lxd/tmp/lxd_1" ∧
    resolvePath cwd "hosts" ≠ "/var/lib/lxd/tmp/lxd_2" := by
  have key : ∀ s : String, (s ++ "hosts").data.getLast? = some 's' := by
    intro s
    rw [String.data_append]
    simp [List.getLast?_append]
  have hr : ∃ s : String, resolvePath cwd "hosts" = s ++ "hosts" := by
    unfold resolvePath
    by_cases h : cwd = "/"
    · exact ⟨"/", by simp [h]⟩
    · exact ⟨cwd ++ "/", by simp [h]⟩
  obtain ⟨s, hs⟩ := hr
  rw [hs]
  constructor
  · intro h
    have := congrArg (fun x : String => x.data.getLast?) h
    simp only [key] at this
    revert this
    decide
  · intro h
    have := congrArg (fun x : String => x.data.getLast?) h
    simp only [key] at this
    revert this
    decide

/-- A bare name is removed under the working directory: in
`/var/lib/lxd/tmp` the name `lxd_1` removes `/var/lib/lxd/tmp/lxd_1`. -/
theorem remove_in_working_directory :
    (os.Remove demoFS "/var/lib/lxd/tmp" "lxd_1").1 = none ∧
    (os.Remove demoFS "/var/lib/lxd/tmp" "lxd_1").2 "/var/lib/lxd/tmp/lxd_1" = none := by
  constructor <;> decide

/-- C6, what the code does. With `removeAfterServe` set, and in every
working directory, `Render` returns no error and the served files are still
in the filesystem: for one file, whose path `/var/lib/lxd/tmp/lxd_1` differs
from its file name `hosts`, because the removal is given the file name; for
two files because the multipart branch removes nothing. -/
theorem fileResponse_render_keeps_source (cwd : String) :
    (fileResponse.Render demoFileOne "b" cwd demoWriter demoFS).1.1 = none ∧
    (fileResponse.Render demoFileOne "b" cwd demoWriter demoFS).2 "/var/lib/lxd/tmp/lxd_1"
      = some ⟨"hosts", 10, none, none⟩ ∧
    (fileResponse.Render demoFileTwo "b" cwd demoWriter demoFS).1.1 = none ∧
    (fileResponse.Render demoFileTwo "b" cwd demoWriter demoFS).2 "/var/lib/lxd/tmp/lxd_1"
      = some ⟨"hosts", 10, none, none⟩ ∧
    (fileResponse.Render demoFileTwo "b" cwd demoWriter demoFS).2 "/var/lib/lxd/tmp/lxd_2"
      = some ⟨"passwd", 11, none, none⟩ := by
  have hnone : demoFS (resolvePath cwd "hosts") = none := by
    unfold demoFS
    simp [(resolve_hosts cwd).1, (resolve_hosts cwd).2]
  have hremove : (os.Remove demoFS cwd "hosts").2 = demoFS := by
    unfold os.Remove
    rw [hnone]
  refine ⟨rfl, ?_, rfl, rfl, rfl⟩
  show (os.Remove demoFS cwd "hosts").2 "/var/lib/lxd/tmp/lxd_1" = _
  rw [hremove]
  rfl

/-! ### Listing containers with recursion -/

/-- The URL of a snapshot, as `fmt.Sprintf` builds it. -/
theorem snapshot_url (cname name : String) :
    "/" ++ APIVersion ++ "/containers/" ++ cname ++ "/snapshots/" ++ name
      = "/1.0/containers/" ++ cname ++ "/snapshots/" ++ name := by
  have h : "/" ++ APIVersion ++ "/containers/" = "/1.0/containers/" := by decide
  rw [h]

/-- The snapshot URLs that `doContainerGet` collects, in order. -/
theorem snapshot_urls (cname : String) (results : Slice String) :
    (results.toList.foldl
      (fun (body : Slice String) name =>
        body.append ("/" ++ APIVersion ++ "/containers/" ++ cname ++ "/snapshots/" ++ name))
      Slice.nil).toList
      = results.toList.map (fun s => "/1.0/containers/" ++ cname ++ "/snapshots/" ++ s) := by
  have h := foldl_append_toList
    (fun s => "/1.0/containers/" ++ cname ++ "/snapshots/" ++ s) results.toList Slice.nil
  simp only [snapshot_url]
  exact h

/-- With recursion the loop refines the specification: from an allocated
`resultMap` it appends, in order, the containers the specification keeps,
and it leaves the world the specification leaves. -/
theorem loop_recursion {σ : Type} (d : Daemon σ) (names : List String)
    (resultString : Slice String) (xs : List ContainerInfo) (w : World σ) :
    ∃ infos : List ContainerInfo,
      doContainersGet.loop d true names resultString (.mk xs) w =
        ((resultString, .mk (xs ++ infos)), (recursiveListingSpec d names w).2) ∧
      infos.map (fun i => (i.State, i.Snaps.toList)) =
        (recursiveListingSpec d names w).1.map (fun t => t.2) := by
  induction names generalizing xs w with
  | nil => exact ⟨[], by simp [doContainersGet.loop, recursiveListingSpec], rfl⟩
  | cons n rest ih =>
    unfold doContainersGet.loop recursiveListingSpec doContainerGet
    simp only [Bool.not_true, Bool.false_eq_true, if_false]
    rcases h1 : containerLXDLoad d n w with ⟨_ | c, w1⟩
    · exact ih xs w1
    · dsimp only
      rcases h2 : dbContainerGetSnapshots d n w1 with ⟨_ | results, w2⟩
      · exact ih xs w2
      · dsimp only
        rcases h3 : c.RenderState w2 with ⟨_ | cts, w3⟩
        · exact ih xs w3
        · dsimp only
          obtain ⟨infos, hloop, hmap⟩ := ih (xs ++ [ContainerInfo.mk cts
            (results.toList.foldl
              (fun (body : Slice String) name =>
                body.append ("/" ++ APIVersion ++ "/containers/" ++ n ++ "/snapshots/" ++ name))
              Slice.nil)]) w3
          refine ⟨ContainerInfo.mk cts
            (results.toList.foldl
              (fun (body : Slice String) name =>
                body.append ("/" ++ APIVersion ++ "/containers/" ++ n ++ "/snapshots/" ++ name))
              Slice.nil) :: infos, ?_, ?_⟩
          · rw [List.append_assoc] at hloop
            exact hloop
          · simp only [List.map_cons, hmap, snapshot_urls]

/-- The containers the specification keeps are a sub-sequence of the
containers visited. -/
theorem spec_sublist {σ : Type} (d : Daemon σ) (names : List String) (w : World σ) :
    ((recursiveListingSpec d names w).1.map (fun t => t.1)).Sublist names := by
  induction names generalizing w with
  | nil => simp [recursiveListingSpec]
  | cons n rest ih =>
    unfold recursiveListingSpec
    rcases h1 : containerLXDLoad d n w with ⟨_ | c, w1⟩
    · exact List.Sublist.cons n (ih w1)
    · dsimp only
      rcases h2 : dbContainerGetSnapshots d n w1 with ⟨_ | results, w2⟩
      · exact List.Sublist.cons n (ih w2)
      · dsimp only
        rcases h3 : c.RenderState w2 with ⟨_ | cts, w3⟩
        · exact List.Sublist.cons n (ih w3)
        · dsimp only
          rw [List.map_cons]
          exact List.Sublist.cons_cons n (ih w3)

/-- C11. With recursion, once the datastore has listed the containers,
`doContainersGet` returns no error whatever happens to an individual
container. Its result is the allocated list of the containers that the
specification `recursiveListingSpec` keeps: in the order of the datastore,
those whose load, snapshot listing and state rendering all succeed, each with
its state and the URLs `/1.0/containers/<name>/snapshots/<snap>` of its
snapshots in the order of the datastore; the others, whatever the error
(a datastore-locked one included), are left out. So `containersGet` answers
on its first iteration with the sync success response carrying that list,
after one datastore listing and without a sleep. -/
theorem doContainersGet_recursion {σ : Type} (d : Daemon σ) (w w1 : World σ)
    (names : Slice String)
    (hlist : dbContainersList d .cTypeRegular w = (.ok names, w1)) :
    ∃ infos : List ContainerInfo,
      doContainersGet d true w =
        ((.containerInfoList (.mk infos), none), (recursiveListingSpec d names.toList w1).2) ∧
      infos.map (fun i => (i.State, i.Snaps.toList)) =
        (recursiveListingSpec d names.toList w1).1.map (fun t => t.2) ∧
      ((recursiveListingSpec d names.toList w1).1.map (fun t => t.1)).Sublist names.toList ∧
      (∃ evs, (recursiveListingSpec d names.toList w1).2.log =
          w.log ++ Event.dbContainersList .cTypeRegular :: evs ∧
        evs.count (Event.dbContainersList .cTypeRegular) = 0 ∧
        ∀ t, Event.Sleep t ∉ evs) ∧
      ∀ (g : Globals σ) (r : Request) (fuel : Nat), d.isRecursionRequest r = true →
        containersGet d g r (fuel + 1) w =
          some (SyncResponse true (.containerInfoList (.mk infos)),
            (recursiveListingSpec d names.toList w1).2) := by
  obtain ⟨infos, hloop, hmap⟩ := loop_recursion d names.toList (.mk []) [] w1
  have hget : doContainersGet d true w =
      ((.containerInfoList (.mk infos), none), (recursiveListingSpec d names.toList w1).2) := by
    unfold doContainersGet
    simp only [hlist, hloop, Bool.not_true, Bool.false_eq_true, if_false, List.nil_append]
  refine ⟨infos, hget, hmap, spec_sublist d names.toList w1, ?_, ?_⟩
  · obtain ⟨evs, hlog, hp⟩ := doContainersGet_log d true w
    rw [hget] at hlog
    exact ⟨evs, hlog, perContainer_count_list evs hp, perContainer_not_sleep evs hp⟩
  · intro g r fuel hrec
    unfold containersGet
    rw [hrec, hget]

/-- C11, on a daemon with three containers: the datastore is locked when
the snapshots of `c2` are listed and `c3` cannot be loaded, so the listing
holds `c1` alone, with its two snapshot URLs, and `containersGet` answers
at once. -/
theorem doContainersGet_recursion_witness :
    dbContainersList demoDaemonLocked .cTypeRegular demoWorld
      = (.ok (.mk ["c1", "c2", "c3"]), ⟨1, [.dbContainersList .cTypeRegular]⟩) ∧
    (∃ infos : List ContainerInfo,
      doContainersGet demoDaemonLocked true demoWorld =
        ((.containerInfoList (.mk infos), none),
          (recursiveListingSpec demoDaemonLocked (Slice.mk ["c1", "c2", "c3"]).toList
            ⟨1, [.dbContainersList .cTypeRegular]⟩).2) ∧
      infos.map (fun i => (i.State, i.Snaps.toList)) =
        (recursiveListingSpec demoDaemonLocked (Slice.mk ["c1", "c2", "c3"]).toList
          ⟨1, [.dbContainersList .cTypeRegular]⟩).1.map (fun t => t.2) ∧
      ((recursiveListingSpec demoDaemonLocked (Slice.mk ["c1", "c2", "c3"]).toList
        ⟨1, [.dbContainersList .cTypeRegular]⟩).1.map (fun t => t.1)).Sublist
          (Slice.mk ["c1", "c2", "c3"]).toList ∧
      (∃ evs, (recursiveListingSpec demoDaemonLocked (Slice.mk ["c1", "c2", "c3"]).toList
          ⟨1, [.dbContainersList .cTypeRegular]⟩).2.log =
          demoWorld.log ++ Event.dbContainersList .cTypeRegular :: evs ∧
        evs.count (Event.dbContainersList .cTypeRegular) = 0 ∧
        ∀ t, Event.Sleep t ∉ evs) ∧
      ∀ (g : Globals Nat) (r : Request) (fuel : Nat),
        demoDaemonLocked.isRecursionRequest r = true →
        containersGet demoDaemonLocked g r (fuel + 1) demoWorld =
          some (SyncResponse true (.containerInfoList (.mk infos)),
            (recursiveListingSpec demoDaemonLocked (Slice.mk ["c1", "c2", "c3"]).toList
              ⟨1, [.dbContainersList .cTypeRegular]⟩).2)) ∧
    (recursiveListingSpec demoDaemonLocked ["c1", "c2", "c3"]
        ⟨1, [.dbContainersList .cTypeRegular]⟩).1 =
      [("c1", ⟨"c1", ⟨"Running", 103⟩⟩,
        ["/1.0/containers/c1/snapshots/snap0", "/1.0/containers/c1/snapshots/snap1"])] ∧
    demoGlobals.isDbLockedError (some (.other 5 "database is locked")) = true ∧
    containersGet demoDaemonLocked demoGlobals demoListRecursion 1 demoWorld =
      some (SyncResponse true (.containerInfoList (.mk
        [⟨⟨"c1", ⟨"Running", 103⟩⟩,
          .mk ["/1.0/containers/c1/snapshots/snap0", "/1.0/containers/c1/snapshots/snap1"]⟩])),
        ⟨7, [.dbContainersList .cTypeRegular, .containerLXDLoad "c1",
          .dbContainerGetSnapshots "c1", .RenderState "c1", .containerLXDLoad "c2",
          .dbContainerGetSnapshots "c2", .containerLXDLoad "c3"]⟩) :=
  ⟨rfl,
    doContainersGet_recursion demoDaemonLocked demoWorld
      ⟨1, [Event.dbContainersList containerType.cTypeRegular]⟩ (.mk ["c1", "c2", "c3"]) rfl,
    rfl, rfl, rfl⟩

end LXD
